import Mathlib

/-!
# Verification of the ClickUp CLI client's request/cache/invalidation contract

This file is a shallow embedding of `src/scripts/clickup-client.ts` together
with a model of the external read-through cache collaborator
(`@local/plugin-cache`, not part of the repository sources; its `createCacheKey`,
`getOrFetch`, `invalidate`, `invalidatePattern`, `enable`/`disable` operations
are modelled from the specification's contract in section 4.2).

Conventions of the embedding:
* JavaScript numbers that the client uses (Unix-millisecond timestamps, page
  numbers, user ids, durations) are modelled as `Nat`; `String(n)` is modelled
  by the decimal rendering `natSer`.
* `undefined` optional values are `Option.none`; JavaScript truthiness of a
  string is `≠ ""`, of a number is `≠ 0`.
* The network is an oracle `Net : Request → HttpResp`; issuing a request is
  recorded in an explicit request log so that "number of network calls" is
  observable.  JSON parsing of a successful response body is modelled as the
  identity on the raw body text, since no claim inspects parsed payloads.
* The regular expressions used for cache invalidation in the source are the
  anchored literal patterns `^tasks`, `^search`, `^task`, `^time_entries` and
  `^comments.*task=<id>`; they are modelled by the `CachePat` type (prefix
  match, and prefix-plus-later-substring match).  Task ids are treated as
  regex-literal text, which is faithful for ClickUp's alphanumeric ids.
-/

/-! ## Decimal rendering of numbers (model of JavaScript `String(n)`) -/

def decDigit : Nat → Char
  | 0 => '0' | 1 => '1' | 2 => '2' | 3 => '3' | 4 => '4'
  | 5 => '5' | 6 => '6' | 7 => '7' | 8 => '8' | _ => '9'

def digitVal (c : Char) : Nat := c.toNat - 48

def natSerAux : Nat → Nat → List Char
  | 0, _ => []
  | fuel+1, n => if n < 10 then [decDigit n] else natSerAux fuel (n / 10) ++ [decDigit (n % 10)]

def natSer (n : Nat) : String := String.mk (natSerAux (n+1) n)

def digitsVal (l : List Char) : Nat := l.foldl (fun a c => 10 * a + digitVal c) 0

theorem digitVal_decDigit {d : Nat} (h : d < 10) : digitVal (decDigit d) = d := by
  interval_cases d <;> decide

theorem digitsVal_append (l : List Char) (c : Char) :
    digitsVal (l ++ [c]) = 10 * digitsVal l + digitVal c := by
  simp [digitsVal, List.foldl_append]

theorem natSerAux_val : ∀ fuel n, n < fuel → digitsVal (natSerAux fuel n) = n := by
  intro fuel
  induction fuel with
  | zero => intro n h; omega
  | succ f ih =>
    intro n h
    by_cases h10 : n < 10
    · simp [natSerAux, h10, digitsVal, digitVal_decDigit h10]
    · have hdiv : n / 10 < n := Nat.div_lt_self (by omega) (by omega)
      have hfuel : n / 10 < f := by omega
      have hm : n % 10 < 10 := Nat.mod_lt _ (by omega)
      simp only [natSerAux, if_neg h10]
      rw [digitsVal_append, ih _ hfuel, digitVal_decDigit hm]
      omega

theorem natSer_injective : Function.Injective natSer := by
  intro a b h
  have hdata : natSerAux (a+1) a = natSerAux (b+1) b := congrArg String.data h
  have ha := natSerAux_val (a+1) a (by omega)
  have hb := natSerAux_val (b+1) b (by omega)
  rw [hdata] at ha
  omega

theorem decDigit_ne_pipe {d : Nat} : decDigit d ≠ '|' := by
  unfold decDigit
  split <;> decide

theorem natSerAux_no_pipe : ∀ fuel n c, c ∈ natSerAux fuel n → c ≠ '|' := by
  intro fuel
  induction fuel with
  | zero => intro n c hc; simp [natSerAux] at hc
  | succ f ih =>
    intro n c hc
    by_cases h10 : n < 10
    · simp [natSerAux, h10] at hc
      subst hc; exact decDigit_ne_pipe
    · simp only [natSerAux, if_neg h10, List.mem_append, List.mem_singleton] at hc
      rcases hc with hc | hc
      · exact ih _ _ hc
      · subst hc; exact decDigit_ne_pipe

/-- Model of JavaScript `String(b)` for a boolean. -/
def serBool (b : Bool) : String := if b then "true" else "false"

theorem serBool_injective : Function.Injective serBool := by
  intro a b h
  cases a <;> cases b <;> simp [serBool] at h ⊢

theorem serBool_no_pipe (b : Bool) (c : Char) (hc : c ∈ (serBool b).data) : c ≠ '|' := by
  cases b
  · have h2 : c ∈ ['f','a','l','s','e'] := hc
    fin_cases h2 <;> decide
  · have h2 : c ∈ ['t','r','u','e'] := hc
    fin_cases h2 <;> decide

/-! ## Lexicographic order on strings used to canonicalise cache keys -/

def lexLeb : List Char → List Char → Bool
  | [], _ => true
  | _ :: _, [] => false
  | a :: as, b :: bs =>
    if a.toNat < b.toNat then true
    else if b.toNat < a.toNat then false
    else lexLeb as bs

def skeyLe (a b : String) : Prop := lexLeb a.data b.data = true

instance : DecidableRel skeyLe := fun a b => by unfold skeyLe; infer_instance

theorem lexLeb_total : ∀ a b : List Char, lexLeb a b = true ∨ lexLeb b a = true := by
  intro a
  induction a with
  | nil => intro b; left; simp [lexLeb]
  | cons x xs ih =>
    intro b
    cases b with
    | nil => right; simp [lexLeb]
    | cons y ys =>
      by_cases h1 : x.toNat < y.toNat
      · left; simp [lexLeb, h1]
      · by_cases h2 : y.toNat < x.toNat
        · right; simp [lexLeb, h2]
        · rcases ih ys with h | h
          · left; simp [lexLeb, h1, h2, h]
          · right; simp [lexLeb, h1, h2, h]

theorem char_toNat_inj {a b : Char} (h : a.toNat = b.toNat) : a = b := by
  apply Char.eq_of_val_eq
  exact UInt32.toNat.inj h

theorem lexLeb_antisymm : ∀ a b : List Char,
    lexLeb a b = true → lexLeb b a = true → a = b := by
  intro a
  induction a with
  | nil =>
    intro b _ hba
    cases b with
    | nil => rfl
    | cons y ys => simp [lexLeb] at hba
  | cons x xs ih =>
    intro b hab hba
    cases b with
    | nil => simp [lexLeb] at hab
    | cons y ys =>
      by_cases h1 : x.toNat < y.toNat
      · exfalso
        have h2 : ¬ y.toNat < x.toNat := by omega
        simp [lexLeb, h2, h1] at hba
      · by_cases h2 : y.toNat < x.toNat
        · simp [lexLeb, h1, h2] at hab
        · simp only [lexLeb, if_neg h1, if_neg h2] at hab hba
          have : x = y := char_toNat_inj (by omega)
          rw [this, ih ys hab hba]

theorem lexLeb_trans : ∀ a b c : List Char,
    lexLeb a b = true → lexLeb b c = true → lexLeb a c = true := by
  intro a
  induction a with
  | nil => intro b c _ _; simp [lexLeb]
  | cons x xs ih =>
    intro b c hab hbc
    cases b with
    | nil => simp [lexLeb] at hab
    | cons y ys =>
      cases c with
      | nil => simp [lexLeb] at hbc
      | cons z zs =>
        simp only [lexLeb] at hab hbc ⊢
        by_cases hxy : x.toNat < y.toNat
        · by_cases hyz : y.toNat < z.toNat
          · have : x.toNat < z.toNat := by omega
            simp [this]
          · by_cases hzy : z.toNat < y.toNat
            · simp [hyz, hzy] at hbc
            · have : x.toNat < z.toNat := by omega
              simp [this]
        · by_cases hyx : y.toNat < x.toNat
          · simp [hxy, hyx] at hab
          · have hxy' : x.toNat = y.toNat := by omega
            by_cases hyz : y.toNat < z.toNat
            · have : x.toNat < z.toNat := by omega
              simp [this]
            · by_cases hzy : z.toNat < y.toNat
              · simp [hyz, hzy] at hbc
              · have hx : ¬ x.toNat < z.toNat := by omega
                have hz : ¬ z.toNat < x.toNat := by omega
                simp only [if_neg hxy, if_neg hyx] at hab
                simp only [if_neg hyz, if_neg hzy] at hbc
                simp [hx, hz, ih ys zs hab hbc]

instance : IsTotal String skeyLe := ⟨fun a b => lexLeb_total a.data b.data⟩

instance : IsTrans String skeyLe := ⟨fun a b c => lexLeb_trans a.data b.data c.data⟩

instance : IsAntisymm String skeyLe :=
  ⟨fun a b hab hba => by
    cases a; cases b
    exact congrArg String.mk (lexLeb_antisymm _ _ hab hba)⟩

/-! ## Separator joining (model of JavaScript `Array.join`) and its injectivity -/

def sepTail (sep : Char) (joined : List Char) : List (List Char) → List Char
  | [] => []
  | _ :: _ => sep :: joined

def joinSep (sep : Char) : List (List Char) → List Char
  | [] => []
  | a :: t => a ++ sepTail sep (joinSep sep t) t

theorem joinSep_cons (sep : Char) (a : List Char) (t : List (List Char)) :
    joinSep sep (a :: t) = a ++ sepTail sep (joinSep sep t) t := rfl

/-- Model of JavaScript `arr.join(",")`, as used to flatten array-valued
filter parameters into the cache key. -/
def joinComma (l : List String) : String := String.mk (joinSep ',' (l.map String.data))

theorem sep_split (sep : Char) : ∀ (xs : List Char) (ys r1 r2 : List Char),
    sep ∉ xs → sep ∉ ys →
    (r1 = [] ∨ ∃ t, r1 = sep :: t) → (r2 = [] ∨ ∃ t, r2 = sep :: t) →
    xs ++ r1 = ys ++ r2 → xs = ys ∧ r1 = r2 := by
  intro xs
  induction xs with
  | nil =>
    intro ys r1 r2 _ hys h1 _ heq
    cases ys with
    | nil => simpa using heq
    | cons y yt =>
      exfalso
      simp only [List.nil_append, List.cons_append] at heq
      rcases h1 with rfl | ⟨t, rfl⟩
      · simp at heq
      · have : y = sep := by
          have := congrArg (fun l => l.head?) heq
          simpa using this.symm
        exact (hys (by simp [this]))
  | cons x xt ih =>
    intro ys r1 r2 hxs hys h1 h2 heq
    cases ys with
    | nil =>
      exfalso
      simp only [List.cons_append, List.nil_append] at heq
      rcases h2 with rfl | ⟨t, rfl⟩
      · simp at heq
      · have : x = sep := by
          have := congrArg (fun l => l.head?) heq
          simpa using this
        exact (hxs (by simp [this]))
    | cons y yt =>
      simp only [List.cons_append, List.cons.injEq] at heq
      obtain ⟨rfl, heq2⟩ := heq
      have hxs' : sep ∉ xt := fun h => hxs (by simp [h])
      have hys' : sep ∉ yt := fun h => hys (by simp [h])
      obtain ⟨he, hr⟩ := ih yt r1 r2 hxs' hys' h1 h2 heq2
      exact ⟨by rw [he], hr⟩

theorem joinSep_injective (sep : Char) : ∀ (l1 l2 : List (List Char)),
    (∀ x ∈ l1, x ≠ [] ∧ sep ∉ x) → (∀ x ∈ l2, x ≠ [] ∧ sep ∉ x) →
    joinSep sep l1 = joinSep sep l2 → l1 = l2 := by
  intro l1
  induction l1 with
  | nil =>
    intro l2 _ h2 heq
    cases l2 with
    | nil => rfl
    | cons y yt =>
      exfalso
      simp only [joinSep, List.nil_eq] at heq
      have hy := (h2 y (by simp)).1
      rcases List.append_eq_nil.mp heq with ⟨hy', _⟩
      exact hy hy'
  | cons x xt ih =>
    intro l2 h1 h2 heq
    cases l2 with
    | nil =>
      exfalso
      simp only [joinSep] at heq
      have hx := (h1 x (by simp)).1
      rcases List.append_eq_nil.mp heq with ⟨hx', _⟩
      exact hx hx'
    | cons y yt =>
      rw [joinSep_cons, joinSep_cons] at heq
      have hshape1 : sepTail sep (joinSep sep xt) xt = [] ∨
          ∃ t, sepTail sep (joinSep sep xt) xt = sep :: t := by
        cases xt <;> simp [sepTail]
      have hshape2 : sepTail sep (joinSep sep yt) yt = [] ∨
          ∃ t, sepTail sep (joinSep sep yt) yt = sep :: t := by
        cases yt <;> simp [sepTail]
      obtain ⟨hxy, htail⟩ := sep_split sep x y _ _
        (h1 x (by simp)).2 (h2 y (by simp)).2 hshape1 hshape2 heq
      subst hxy
      have h1' : ∀ z ∈ xt, z ≠ [] ∧ sep ∉ z := fun z hz => h1 z (by simp [hz])
      have h2' : ∀ z ∈ yt, z ≠ [] ∧ sep ∉ z := fun z hz => h2 z (by simp [hz])
      cases xt with
      | nil =>
        cases yt with
        | nil => rfl
        | cons b bt => simp [sepTail] at htail
      | cons a at' =>
        cases yt with
        | nil => simp [sepTail] at htail
        | cons b bt =>
          simp only [sepTail, List.cons.injEq, true_and] at htail
          rw [ih (b :: bt) h1' h2' htail]

theorem joinComma_injective (l1 l2 : List String)
    (h1 : ∀ s ∈ l1, s ≠ "" ∧ ',' ∉ s.data) (h2 : ∀ s ∈ l2, s ≠ "" ∧ ',' ∉ s.data)
    (heq : joinComma l1 = joinComma l2) : l1 = l2 := by
  have hd : joinSep ',' (l1.map String.data) = joinSep ',' (l2.map String.data) := by
    have := congrArg String.data heq
    simpa [joinComma] using this
  have hmem : ∀ (l : List String), (∀ s ∈ l, s ≠ "" ∧ ',' ∉ s.data) →
      ∀ x ∈ l.map String.data, x ≠ [] ∧ ',' ∉ x := by
    intro l hl x hx
    obtain ⟨s, hs, rfl⟩ := List.mem_map.mp hx
    refine ⟨fun hnil => (hl s hs).1 ?_, (hl s hs).2⟩
    cases s
    simpa using congrArg String.mk hnil
  have := joinSep_injective ',' _ _ (hmem l1 h1) (hmem l2 h2) hd
  have hinj : Function.Injective String.data := by
    intro a b hab
    cases a; cases b
    exact congrArg String.mk hab
  exact List.map_injective_iff.mpr hinj this

/-! ## The cache-key derivation (modelled from the spec)

Modelled from the spec: `createCacheKey` belongs to the external
`@local/plugin-cache` collaborator, whose sources are not in the repository.
The spec states: "the key is a deterministic function of (operation name, all
semantically relevant parameters after normalizing arrays to a stable joined
string and omitting `undefined` values)" and that the derived key is identical
"regardless of object key insertion order or `undefined` vs. omitted fields".
We model it as: the operation name, a `:`, then the defined `name=value`
entries serialised and sorted into a canonical order, joined by `|`. -/

inductive PVal where
  | s (v : String)
  | n (v : Nat)
  | b (v : Bool)

def serPVal : PVal → String
  | .s v => v
  | .n v => natSer v
  | .b v => serBool v

/-- The defined (non-`undefined`) parameters, serialised. -/
def definedSer (ps : List (String × Option PVal)) : List (String × String) :=
  ps.filterMap (fun q => q.2.map (fun v => (q.1, serPVal v)))

def encData (p : String × String) : List Char := p.1.data ++ '=' :: p.2.data

def llLe (a b : List Char) : Prop := lexLeb a b = true

instance : DecidableRel llLe := fun a b => by unfold llLe; infer_instance

instance : IsTotal (List Char) llLe := ⟨fun a b => lexLeb_total a b⟩

instance : IsTrans (List Char) llLe := ⟨fun a b c => lexLeb_trans a b c⟩

instance : IsAntisymm (List Char) llLe := ⟨fun a b => lexLeb_antisymm a b⟩

def createCacheKey (op : String) (ps : List (String × Option PVal)) : String :=
  op ++ ":" ++ String.mk (joinSep '|' (List.insertionSort llLe ((definedSer ps).map encData)))

/-- Key determinism: the derived key depends only on the multiset of defined
(name, serialised value) pairs — insertion order is irrelevant and `undefined`
entries are omitted. -/
theorem createCacheKey_of_perm (op : String) (ps qs : List (String × Option PVal))
    (h : (definedSer ps).Perm (definedSer qs)) :
    createCacheKey op ps = createCacheKey op qs := by
  have hs : List.insertionSort llLe ((definedSer ps).map encData) =
      List.insertionSort llLe ((definedSer qs).map encData) :=
    List.eq_of_perm_of_sorted (r := llLe)
      (((List.perm_insertionSort llLe _).trans (h.map encData)).trans
        (List.perm_insertionSort llLe _).symm)
      (List.sorted_insertionSort llLe _) (List.sorted_insertionSort llLe _)
  rw [createCacheKey, createCacheKey, hs]

/-! ## Decoding a cache-key component back into its (name, value) pair -/

def splitAtSep (sep : Char) : List Char → List Char × List Char
  | [] => ([], [])
  | c :: t =>
    if c = sep then ([], t)
    else
      let p := splitAtSep sep t
      (c :: p.1, p.2)

theorem splitAtSep_append (sep : Char) : ∀ (xs r : List Char), sep ∉ xs →
    splitAtSep sep (xs ++ sep :: r) = (xs, r) := by
  intro xs
  induction xs with
  | nil => intro r _; simp [splitAtSep]
  | cons c t ih =>
    intro r hmem
    have hc : c ≠ sep := fun h => hmem (by simp [h])
    have ht : sep ∉ t := fun h => hmem (by simp [h])
    simp [splitAtSep, hc, ih r ht]

def decData (l : List Char) : String × String :=
  (String.mk (splitAtSep '=' l).1, String.mk (splitAtSep '=' l).2)

theorem decData_encData (p : String × String) (hk : '=' ∉ p.1.data) :
    decData (encData p) = p := by
  obtain ⟨k, v⟩ := p
  simp only [decData, encData, splitAtSep_append '=' k.data v.data hk]

theorem encData_ne_nil (p : String × String) : encData p ≠ [] := by
  simp [encData]

theorem encData_no_pipe (p : String × String) (h1 : '|' ∉ p.1.data) (h2 : '|' ∉ p.2.data) :
    '|' ∉ encData p := by
  simp only [encData, List.mem_append, List.mem_cons]
  rintro (h | h | h)
  · exact h1 h
  · exact absurd h (by decide)
  · exact h2 h

/-- Key injectivity at the level of defined parameter multisets: two parameter
lists whose serialised names and values avoid the reserved separator characters
and that derive the same cache key have permutation-equal defined entries. -/
theorem createCacheKey_inj (op : String) (ps qs : List (String × Option PVal))
    (hp : ∀ p ∈ definedSer ps, '=' ∉ p.1.data ∧ '|' ∉ p.1.data ∧ '|' ∉ p.2.data)
    (hq : ∀ p ∈ definedSer qs, '=' ∉ p.1.data ∧ '|' ∉ p.1.data ∧ '|' ∉ p.2.data)
    (heq : createCacheKey op ps = createCacheKey op qs) :
    (definedSer ps).Perm (definedSer qs) := by
  have hd : joinSep '|' (List.insertionSort llLe ((definedSer ps).map encData)) =
      joinSep '|' (List.insertionSort llLe ((definedSer qs).map encData)) := by
    have h2 := congrArg String.data heq
    rw [createCacheKey, createCacheKey, String.data_append, String.data_append] at h2
    exact List.append_cancel_left h2
  have hcond : ∀ (rs : List (String × Option PVal)),
      (∀ p ∈ definedSer rs, '=' ∉ p.1.data ∧ '|' ∉ p.1.data ∧ '|' ∉ p.2.data) →
      ∀ x ∈ List.insertionSort llLe ((definedSer rs).map encData), x ≠ [] ∧ '|' ∉ x := by
    intro rs hrs x hx
    rw [(List.perm_insertionSort llLe _).mem_iff] at hx
    obtain ⟨p, hpmem, rfl⟩ := List.mem_map.mp hx
    exact ⟨encData_ne_nil p, encData_no_pipe p (hrs p hpmem).2.1 (hrs p hpmem).2.2⟩
  have hsorted := joinSep_injective '|' _ _ (hcond ps hp) (hcond qs hq) hd
  have hperm : ((definedSer ps).map encData).Perm ((definedSer qs).map encData) :=
    ((List.perm_insertionSort llLe _).symm.trans (hsorted ▸ List.perm_insertionSort llLe _))
  have hdec := hperm.map decData
  rw [List.map_map, List.map_map] at hdec
  have hround : ∀ (rs : List (String × Option PVal)),
      (∀ p ∈ definedSer rs, '=' ∉ p.1.data ∧ '|' ∉ p.1.data ∧ '|' ∉ p.2.data) →
      (definedSer rs).map (decData ∘ encData) = definedSer rs := by
    intro rs hrs
    have hcongr : ∀ p ∈ definedSer rs, (decData ∘ encData) p = id p :=
      fun p hp2 => decData_encData p (hrs p hp2).1
    rw [List.map_congr_left hcongr, List.map_id]
  rwa [hround ps hp, hround qs hq] at hdec

/-! ## Association-list lookups over defined parameters -/

def alookup {β : Type} (k : String) : List (String × β) → Option β
  | [] => none
  | p :: t => if k = p.1 then some p.2 else alookup k t

theorem alookup_eq_none_of_not_mem {β : Type} (k : String) :
    ∀ (l : List (String × β)), k ∉ l.map Prod.fst → alookup k l = none := by
  intro l
  induction l with
  | nil => intro _; rfl
  | cons p t ih =>
    intro h
    have h1 : k ≠ p.1 := fun he => h (by simp [he])
    have h2 : k ∉ t.map Prod.fst := fun he => h (by simp [he])
    simp [alookup, h1, ih h2]

theorem alookup_append_of_none {β : Type} (k : String) (A B : List (String × β))
    (hA : alookup k A = none) : alookup k (A ++ B) = alookup k B := by
  induction A with
  | nil => rfl
  | cons p t ih =>
    by_cases h : k = p.1
    · simp [alookup, h] at hA
    · simp only [alookup, if_neg h] at hA
      simp [alookup, h, ih hA]

theorem alookup_perm {β : Type} : ∀ {A B : List (String × β)}, A.Perm B →
    (A.map Prod.fst).Nodup → ∀ k, alookup k A = alookup k B := by
  intro A B h
  induction h with
  | nil => intro _ _; rfl
  | cons x _ ih =>
    intro hnd k
    rw [List.map_cons, List.nodup_cons] at hnd
    by_cases hk : k = x.1 <;> simp [alookup, hk, ih hnd.2 k]
  | swap x y l =>
    intro hnd k
    have hxy : y.1 ≠ x.1 := by
      simp only [List.map_cons, List.nodup_cons, List.mem_cons] at hnd
      exact fun h => hnd.1 (Or.inl h)
    by_cases h1 : k = y.1
    · have h2 : k ≠ x.1 := by rw [h1]; exact hxy
      simp [alookup, h1, h2, hxy]
    · by_cases h2 : k = x.1
      · simp [alookup, h1, h2, hxy.symm]
      · simp [alookup, h1, h2]
  | trans h1 _ ih1 ih2 =>
    intro hnd k
    have hnd2 : _ := ((h1.map Prod.fst).nodup hnd)
    rw [ih1 hnd k, ih2 hnd2 k]

theorem definedSer_keys_sublist (ps : List (String × Option PVal)) :
    ((definedSer ps).map Prod.fst).Sublist (ps.map Prod.fst) := by
  induction ps with
  | nil => simp [definedSer]
  | cons q t ih =>
    simp only [definedSer, List.filterMap_cons] at *
    cases hq : q.2 with
    | none => simpa using ih.cons q.1
    | some v => simpa using ih.cons₂ q.1

theorem definedSer_keys_nodup (ps : List (String × Option PVal))
    (h : (ps.map Prod.fst).Nodup) : ((definedSer ps).map Prod.fst).Nodup :=
  (definedSer_keys_sublist ps).nodup h

/-! ## HTTP transport layer (embedding of `ClickUpClient.request`) -/

/-- `createTask`'s `data` parameter (src lines 678-697). -/
structure CreateTaskData where
  name : String
  description : Option String := none
  markdown_description : Option String := none
  assignees : Option (List Nat) := none
  tags : Option (List String) := none
  status : Option String := none
  priority : Option Nat := none
  due_date : Option Nat := none
  due_date_time : Option Bool := none
  start_date : Option Nat := none
  start_date_time : Option Bool := none
  notify_all : Option Bool := none
  parent : Option String := none
  links_to : Option String := none
  check_required_custom_fields : Option Bool := none
  custom_fields : Option (List (String × String)) := none

/-- `updateTask`'s `data` parameter (src lines 738-755); `assignees` carries
an add/remove patch. -/
structure UpdateTaskData where
  name : Option String := none
  description : Option String := none
  markdown_description : Option String := none
  assigneesAdd : Option (List Nat) := none
  assigneesRem : Option (List Nat) := none
  status : Option String := none
  priority : Option Nat := none
  due_date : Option Nat := none
  due_date_time : Option Bool := none
  start_date : Option Nat := none
  start_date_time : Option Bool := none
  parent : Option String := none
  time_estimate : Option Nat := none
  archived : Option Bool := none
  list_id : Option String := none

/-- `createTimeEntry`'s `data` parameter (src lines 925-933). -/
structure CreateTimeEntryData where
  start : Nat
  duration : Nat
  description : Option String := none
  tags : Option (List String) := none
  billable : Option Bool := none

/-- Request bodies sent by the client's write operations (the JSON body passed
to `this.request`).  Mirrors the object literals built at each call site:
`addComment` posts `{comment_text, notify_all}` and `createTimeEntry` posts
`{...data, tid: taskId}`. -/
inductive ReqBody where
  | createTaskB (d : CreateTaskData)
  | updateTaskB (d : UpdateTaskData)
  | commentB (comment_text : String) (notify_all : Bool)
  | timeEntryB (d : CreateTimeEntryData) (tid : String)

/-- One HTTP request as issued by `ClickUpClient.request`: method, path
relative to the base URL (query string included in the path), optional body. -/
structure Request where
  method : String
  path : String
  body : Option ReqBody

/-- An HTTP response from the remote service. -/
structure HttpResp where
  status : Nat
  body : String

/-- The network oracle: what the remote service answers to each request. -/
def Net : Type := Request → HttpResp

/-- `response.ok` of the fetch API: status in the 2xx range. -/
def respOk (r : HttpResp) : Prop := 200 ≤ r.status ∧ r.status ≤ 299

instance (r : HttpResp) : Decidable (respOk r) := by unfold respOk; infer_instance

/-- The error thrown by `request` on a non-2xx response
(`throw new Error(\x60ClickUp API error (${response.status}): ${errorText}\x60)`).
The `status` and `body` fields record the data embedded in the message. -/
structure ApiError where
  status : Nat
  body : String
deriving DecidableEq

/-- The message text of the thrown error. -/
def ApiError.message (e : ApiError) : String :=
  "ClickUp API error (" ++ natSer e.status ++ "): " ++ e.body

/-- Embedding of `ClickUpClient.request` (src lines 258-287): issue the fetch,
fail on non-2xx with the error carrying status and raw body text, otherwise
return the response body (JSON parsing modelled as identity). -/
def doRequest (net : Net) (req : Request) : Except ApiError String :=
  let resp := net req
  if respOk resp then .ok resp.body else .error ⟨resp.status, resp.body⟩

/-! ## The cache collaborator (modelled from the spec, section 4.2) -/

/-- One cache entry: stored value and absolute expiry instant (`now + ttl`). -/
structure CacheEntry where
  val : String
  expires : Nat
deriving DecidableEq

/-- Cache state: keyed entries plus the enabled flag toggled by
`enable()`/`disable()`. -/
structure Cache where
  entries : List (String × CacheEntry)
  enabled : Bool
deriving DecidableEq

def emptyCache : Cache := ⟨[], true⟩

/-- Prefix test on strings (the `^literal` anchored regexes). -/
def prefixB (p k : String) : Bool := p.data.isPrefixOf k.data

/-- Substring occurrence test. -/
def isInfixB (n : List Char) : List Char → Bool
  | [] => n.isPrefixOf []
  | c :: t => n.isPrefixOf (c :: t) || isInfixB n t

/-- The invalidation patterns the client uses: `^tasks`, `^search`, `^task`,
`^time_entries` are plain prefix patterns; `^comments.*task=<id>` requires the
prefix and then a later occurrence of the literal text. -/
inductive CachePat where
  | startsWith (p : String)
  | startsWithContains (p mid : String)

def patMatches : CachePat → String → Bool
  | .startsWith p, k => prefixB p k
  | .startsWithContains p mid, k =>
    prefixB p k && isInfixB mid.data (k.data.drop p.data.length)

/-- `cache.invalidate(key)`: remove the entry stored under exactly `key`. -/
def cacheInvalidate (key : String) (c : Cache) : Cache :=
  { c with entries := c.entries.filter (fun e => !(e.1 == key)) }

/-- `cache.invalidatePattern(pattern)`: remove every entry whose key matches. -/
def cacheInvalidatePattern (pat : CachePat) (c : Cache) : Cache :=
  { c with entries := c.entries.filter (fun e => !(patMatches pat e.1)) }

def cacheLookup (c : Cache) (key : String) : Option CacheEntry :=
  alookup key c.entries

/-- Store a value under `key` with expiry `now + ttl` (replacing any previous
entry for the key). -/
def cacheStore (key val : String) (ttl now : Nat) (c : Cache) : Cache :=
  { c with entries := (key, CacheEntry.mk val (now + ttl)) :: c.entries.filter (fun e => e.1 ≠ key) }

def cacheDisable (c : Cache) : Cache := { c with enabled := false }

def cacheEnable (c : Cache) : Cache := { c with enabled := true }

/-- Modelled from the spec: `getOrFetch(key, producer, {ttl, bypass})` of the
external cache collaborator.  Returns a fresh cached value when present,
unexpired and not bypassed; otherwise invokes the producer (here: one network
request), stores a successful result under the key, and returns it.  A
bypassed or disabled fetch does not store (one of the two behaviours the spec
allows for a disabled cache).  The request log records each producer
invocation. -/
def getOrFetch (key : String) (req : Request) (ttl : Nat) (bypass : Bool)
    (net : Net) (now : Nat) (c : Cache) :
    Except ApiError String × Cache × List Request :=
  if bypass || !c.enabled then
    (doRequest net req, c, [req])
  else
    match cacheLookup c key with
    | some e =>
      if now < e.expires then (.ok e.val, c, [])
      else
        match doRequest net req with
        | .ok v => (.ok v, cacheStore key v ttl now c, [req])
        | .error er => (.error er, c, [req])
    | none =>
      match doRequest net req with
      | .ok v => (.ok v, cacheStore key v ttl now c, [req])
      | .error er => (.error er, c, [req])

/-- TTL constants of the cache collaborator, in milliseconds (spec: 1 hour,
15 minutes, 5 minutes). -/
def TTL_FIVE_MINUTES : Nat := 5 * 60 * 1000

def TTL_FIFTEEN_MINUTES : Nat := 15 * 60 * 1000

def TTL_HOUR : Nat := 60 * 60 * 1000

/-! ### Cache lemmas -/

theorem alookup_filter_key_pos {β : Type} (p : String → Bool) (k : String) (hp : p k = true) :
    ∀ l : List (String × β), alookup k (l.filter (fun e => p e.1)) = alookup k l := by
  intro l
  induction l with
  | nil => rfl
  | cons e t ih =>
    obtain ⟨a, v⟩ := e
    by_cases hk : k = a
    · subst hk
      simp [List.filter_cons, hp, alookup]
    · rw [List.filter_cons]
      by_cases hpa : p a = true
      · simp [hpa, alookup, hk, ih]
      · have hpa' : p a = false := by simpa using hpa
        simp only [hpa', Bool.false_eq_true, if_false]
        rw [ih]
        simp [alookup, hk]

theorem alookup_filter_key_neg {β : Type} (p : String → Bool) (k : String) (hp : p k = false) :
    ∀ l : List (String × β), alookup k (l.filter (fun e => p e.1)) = none := by
  intro l
  induction l with
  | nil => rfl
  | cons e t ih =>
    obtain ⟨a, v⟩ := e
    rw [List.filter_cons]
    by_cases hpa : p a = true
    · have hk : k ≠ a := fun he => by rw [he, hpa] at hp; exact absurd hp (by simp)
      simp [hpa, alookup, hk, ih]
    · have hpa' : p a = false := by simpa using hpa
      simp [hpa', ih]

theorem cacheLookup_invalidatePattern_of_match (pat : CachePat) (c : Cache) (k : String)
    (h : patMatches pat k = true) :
    cacheLookup (cacheInvalidatePattern pat c) k = none := by
  unfold cacheLookup cacheInvalidatePattern
  exact alookup_filter_key_neg (fun s => !(patMatches pat s)) k (by simp [h]) c.entries

theorem cacheLookup_invalidatePattern_of_not_match (pat : CachePat) (c : Cache) (k : String)
    (h : patMatches pat k = false) :
    cacheLookup (cacheInvalidatePattern pat c) k = cacheLookup c k := by
  unfold cacheLookup cacheInvalidatePattern
  exact alookup_filter_key_pos (fun s => !(patMatches pat s)) k (by simp [h]) c.entries

theorem cacheLookup_invalidate_same (key : String) (c : Cache) :
    cacheLookup (cacheInvalidate key c) key = none := by
  unfold cacheLookup cacheInvalidate
  exact alookup_filter_key_neg (fun s => !(s == key)) key (by simp) c.entries

theorem cacheLookup_invalidate_other (key k : String) (c : Cache) (h : k ≠ key) :
    cacheLookup (cacheInvalidate key c) k = cacheLookup c k := by
  unfold cacheLookup cacheInvalidate
  exact alookup_filter_key_pos (fun s => !(s == key)) k (by simp [h]) c.entries

/-! ## Query-string construction (model of `URLSearchParams`)

`URLSearchParams` is a platform builtin: an ordered list of (name, value)
pairs; `set` replaces an existing name or appends a fresh one, `append`
always appends, `toString` joins `name=value` pairs with `&` (percent-encoding
is modelled as the identity on the characters the client uses). -/

structure USP where
  pairs : List (String × String)
deriving DecidableEq

def USP.empty : USP := ⟨[]⟩

def replaceFirst (n v : String) : List (String × String) → List (String × String)
  | [] => []
  | p :: t =>
    if p.1 == n then (n, v) :: t.filter (fun q => !(q.1 == n))
    else p :: replaceFirst n v t

def USP.set (n v : String) (u : USP) : USP :=
  if u.pairs.any (fun p => p.1 == n) then ⟨replaceFirst n v u.pairs⟩
  else ⟨u.pairs ++ [(n, v)]⟩

def USP.appendPair (n v : String) (u : USP) : USP := ⟨u.pairs ++ [(n, v)]⟩

def USP.toQueryString (u : USP) : String :=
  String.mk (joinSep '&' (u.pairs.map (fun p => p.1.data ++ '=' :: p.2.data)))

/-- A straight-line query-builder instruction: one `if (x) params.set(...)`
statement (`setOpt nm (some v)` when the guard passed, `setOpt nm none` when
it did not) or one `x.forEach(v => params.append(nm, v))` loop. -/
inductive QStep where
  | setOpt (nm : String) (v : Option String)
  | appendArr (nm : String) (vs : Option (List String))

def runPlan : List QStep → USP → USP
  | [], u => u
  | .setOpt nm v? :: rest, u =>
    runPlan rest (match v? with | some v => u.set nm v | none => u)
  | .appendArr nm vs? :: rest, u =>
    runPlan rest (match vs? with
      | some vs => vs.foldl (fun acc s => USP.appendPair nm s acc) u
      | none => u)

def stepSeg : QStep → List (String × String)
  | .setOpt nm v? => match v? with | some v => [(nm, v)] | none => []
  | .appendArr nm vs? => match vs? with | some vs => vs.map (fun s => (nm, s)) | none => []

def planSegs (plan : List QStep) : List (String × String) := plan.flatMap stepSeg

def stepName : QStep → String
  | .setOpt nm _ => nm
  | .appendArr nm _ => nm

def planNames (plan : List QStep) : List String := plan.map stepName

theorem set_pairs_of_fresh (n v : String) (u : USP) (h : ∀ p ∈ u.pairs, p.1 ≠ n) :
    (USP.set n v u).pairs = u.pairs ++ [(n, v)] := by
  unfold USP.set
  rw [if_neg]
  intro hany
  rw [List.any_eq_true] at hany
  obtain ⟨p, hp, hpe⟩ := hany
  exact h p hp (by simpa using hpe)

theorem foldl_appendPair (nm : String) (vs : List String) :
    ∀ u : USP, (vs.foldl (fun acc s => USP.appendPair nm s acc) u).pairs =
      u.pairs ++ vs.map (fun s => (nm, s)) := by
  induction vs with
  | nil => intro u; simp
  | cons v t ih =>
    intro u
    rw [List.foldl_cons, ih]
    simp [USP.appendPair]

theorem runPlan_pairs : ∀ (plan : List QStep) (u : USP),
    (∀ p ∈ u.pairs, p.1 ∉ planNames plan) → (planNames plan).Nodup →
    (runPlan plan u).pairs = u.pairs ++ planSegs plan := by
  intro plan
  induction plan with
  | nil => intro u _ _; simp [runPlan, planSegs]
  | cons step rest ih =>
    intro u hfresh hnodup
    rw [planNames, List.map_cons, List.nodup_cons] at hnodup
    have hstep : ∀ (u' : USP), u'.pairs = u.pairs ++ stepSeg step →
        (runPlan rest u').pairs = u.pairs ++ planSegs (step :: rest) := by
      intro u' hu'
      have hfresh' : ∀ p ∈ u'.pairs, p.1 ∉ planNames rest := by
        intro p hp
        rw [hu', List.mem_append] at hp
        rcases hp with hp | hp
        · intro hc
          apply hfresh p hp
          rw [planNames, List.map_cons]
          exact List.mem_cons_of_mem _ hc
        · have hname : p.1 = stepName step := by
            cases step with
            | setOpt nm v? =>
              cases v? with
              | none => simp [stepSeg] at hp
              | some v =>
                simp only [stepSeg, List.mem_singleton] at hp
                rw [hp]
                rfl
            | appendArr nm vs? =>
              cases vs? with
              | none => simp [stepSeg] at hp
              | some vs =>
                simp only [stepSeg] at hp
                obtain ⟨s, _, rfl⟩ := List.mem_map.mp hp
                rfl
          rw [hname]
          exact hnodup.1
      rw [ih u' hfresh' hnodup.2, hu', List.append_assoc]
      simp [planSegs]
    cases step with
    | setOpt nm v? =>
      cases v? with
      | none =>
        simp only [runPlan]
        exact hstep u (by simp [stepSeg])
      | some v =>
        simp only [runPlan]
        apply hstep
        rw [set_pairs_of_fresh nm v u (fun p hp => fun hc => hfresh p hp (by simp [planNames, stepName, hc]))]
        simp [stepSeg]
    | appendArr nm vs? =>
      cases vs? with
      | none =>
        simp only [runPlan]
        exact hstep u (by simp [stepSeg])
      | some vs =>
        simp only [runPlan]
        apply hstep
        rw [foldl_appendPair]
        simp [stepSeg]

/-! ## Per-operation option records (the optional-filter objects of the source) -/

/-- `getTasks` filter options (src lines 476-491). -/
structure GetTasksOptions where
  archived : Option Bool := none
  include_closed : Option Bool := none
  page : Option Nat := none
  order_by : Option String := none
  reverse : Option Bool := none
  subtasks : Option Bool := none
  statuses : Option (List String) := none
  assignees : Option (List String) := none
  due_date_gt : Option Nat := none
  due_date_lt : Option Nat := none
  date_created_gt : Option Nat := none
  date_created_lt : Option Nat := none
  date_updated_gt : Option Nat := none
  date_updated_lt : Option Nat := none
deriving DecidableEq

/-- `searchTasks` filter options (src lines 595-603). -/
structure SearchTasksOptions where
  include_closed : Option Bool := none
  assigned_to_me : Option Bool := none
  list_ids : Option (List String) := none
  space_ids : Option (List String) := none
  folder_ids : Option (List String) := none
  statuses : Option (List String) := none
  page : Option Nat := none
deriving DecidableEq

/-- `getTaskComments` pagination options (src line 793). -/
structure CommentsOptions where
  start : Option Nat := none
  start_id : Option String := none
deriving DecidableEq

/-- `getTimeEntries` filter options (src lines 865-874). -/
structure TimeEntriesOptions where
  start_date : Option Nat := none
  end_date : Option Nat := none
  assignee : Option Nat := none
  include_task_tags : Option Bool := none
  include_location_names : Option Bool := none
  space_id : Option String := none
  folder_id : Option String := none
  list_id : Option String := none
  task_id : Option String := none
deriving DecidableEq

/-! ## Query plans: the `if (...) params.set/append` sequences of the source -/

/-- JavaScript truthiness guard on a boolean option:
`if (options?.x) params.set(nm, "true")`. -/
def truthyBoolV : Option Bool → Option String
  | some true => some "true"
  | _ => none

/-- JavaScript truthiness guard on a numeric option:
`if (options?.x) params.set(nm, String(options.x))` — note `0` is falsy. -/
def truthyNatV : Option Nat → Option String
  | some n => if n = 0 then none else some (natSer n)
  | none => none

/-- JavaScript truthiness guard on a string option — `""` is falsy. -/
def truthyStrV : Option String → Option String
  | some s => if s = "" then none else some s
  | none => none

/-- The query-builder sequence of `getTasks` (src lines 516-531), one `QStep`
per source statement, in source order.  `archived` and `page` are guarded by
`!== undefined`; the booleans `include_closed`/`reverse`/`subtasks`, the string
`order_by` and the six date bounds are guarded by truthiness; `statuses` and
`assignees` are `forEach`-appended with a `[]` name suffix. -/
def getTasksPlan (o : GetTasksOptions) : List QStep :=
  [ .setOpt "archived" (o.archived.map serBool),
    .setOpt "include_closed" (truthyBoolV o.include_closed),
    .setOpt "page" (o.page.map natSer),
    .setOpt "order_by" (truthyStrV o.order_by),
    .setOpt "reverse" (truthyBoolV o.reverse),
    .setOpt "subtasks" (truthyBoolV o.subtasks),
    .appendArr "statuses[]" o.statuses,
    .appendArr "assignees[]" o.assignees,
    .setOpt "due_date_gt" (truthyNatV o.due_date_gt),
    .setOpt "due_date_lt" (truthyNatV o.due_date_lt),
    .setOpt "date_created_gt" (truthyNatV o.date_created_gt),
    .setOpt "date_created_lt" (truthyNatV o.date_created_lt),
    .setOpt "date_updated_gt" (truthyNatV o.date_updated_gt),
    .setOpt "date_updated_lt" (truthyNatV o.date_updated_lt) ]

def getTasksUSP (o : GetTasksOptions) : USP := runPlan (getTasksPlan o) USP.empty

/-- The query-builder sequence of `searchTasks` (src lines 621-629).  Note the
source never sends `assigned_to_me` as a query parameter. -/
def searchTasksPlan (query : String) (o : SearchTasksOptions) : List QStep :=
  [ .setOpt "query" (truthyStrV (some query)),
    .setOpt "include_closed" (truthyBoolV o.include_closed),
    .setOpt "page" (o.page.map natSer),
    .appendArr "list_ids[]" o.list_ids,
    .appendArr "space_ids[]" o.space_ids,
    .appendArr "folder_ids[]" o.folder_ids,
    .appendArr "statuses[]" o.statuses ]

def searchTasksUSP (query : String) (o : SearchTasksOptions) : USP :=
  runPlan (searchTasksPlan query o) USP.empty

/-- The query-builder sequence of `getTaskComments` (src lines 799-801). -/
def commentsPlan (o : CommentsOptions) : List QStep :=
  [ .setOpt "start" (truthyNatV o.start),
    .setOpt "start_id" (truthyStrV o.start_id) ]

def commentsUSP (o : CommentsOptions) : USP := runPlan (commentsPlan o) USP.empty

/-- The query-builder sequence of `getTimeEntries` (src lines 883-891). -/
def timeEntriesPlan (o : TimeEntriesOptions) : List QStep :=
  [ .setOpt "start_date" (truthyNatV o.start_date),
    .setOpt "end_date" (truthyNatV o.end_date),
    .setOpt "assignee" (truthyNatV o.assignee),
    .setOpt "include_task_tags" (truthyBoolV o.include_task_tags),
    .setOpt "include_location_names" (truthyBoolV o.include_location_names),
    .setOpt "space_id" (truthyStrV o.space_id),
    .setOpt "folder_id" (truthyStrV o.folder_id),
    .setOpt "list_id" (truthyStrV o.list_id),
    .setOpt "task_id" (truthyStrV o.task_id) ]

def timeEntriesUSP (o : TimeEntriesOptions) : USP := runPlan (timeEntriesPlan o) USP.empty

/-- `queryString ? \x60?${queryString}\x60 : ""` of the source. -/
def querySfx (u : USP) : String :=
  let qs := u.toQueryString
  if qs = "" then "" else "?" ++ qs

def getTasksEndpoint (listId : String) (o : GetTasksOptions) : String :=
  "/list/" ++ listId ++ "/task" ++ querySfx (getTasksUSP o)

def searchTasksEndpoint (teamId query : String) (o : SearchTasksOptions) : String :=
  "/team/" ++ teamId ++ "/task" ++ querySfx (searchTasksUSP query o)

def commentsEndpoint (taskId : String) (o : CommentsOptions) : String :=
  "/task/" ++ taskId ++ "/comment" ++ querySfx (commentsUSP o)

def timeEntriesEndpoint (teamId : String) (o : TimeEntriesOptions) : String :=
  "/team/" ++ teamId ++ "/time_entries" ++ querySfx (timeEntriesUSP o)

/-! ## Cache keys of the read operations -/

/-- The `cacheParams` object of `getTasks` (src lines 494-510): arrays joined
with `,`, in source insertion order. -/
def tasksCacheParams (listId : String) (o : GetTasksOptions) : List (String × Option PVal) :=
  [ ("list", some (.s listId)),
    ("archived", o.archived.map .b),
    ("include_closed", o.include_closed.map .b),
    ("page", o.page.map .n),
    ("order_by", o.order_by.map .s),
    ("reverse", o.reverse.map .b),
    ("subtasks", o.subtasks.map .b),
    ("statuses", o.statuses.map (fun l => .s (joinComma l))),
    ("assignees", o.assignees.map (fun l => .s (joinComma l))),
    ("due_date_gt", o.due_date_gt.map .n),
    ("due_date_lt", o.due_date_lt.map .n),
    ("date_created_gt", o.date_created_gt.map .n),
    ("date_created_lt", o.date_created_lt.map .n),
    ("date_updated_gt", o.date_updated_gt.map .n),
    ("date_updated_lt", o.date_updated_lt.map .n) ]

def getTasksKey (listId : String) (o : GetTasksOptions) : String :=
  createCacheKey "tasks" (tasksCacheParams listId o)

/-- The `cacheParams` object of `searchTasks` (src lines 606-615). -/
def searchCacheParams (query : String) (o : SearchTasksOptions) : List (String × Option PVal) :=
  [ ("query", some (.s query)),
    ("include_closed", o.include_closed.map .b),
    ("assigned_to_me", o.assigned_to_me.map .b),
    ("list_ids", o.list_ids.map (fun l => .s (joinComma l))),
    ("space_ids", o.space_ids.map (fun l => .s (joinComma l))),
    ("folder_ids", o.folder_ids.map (fun l => .s (joinComma l))),
    ("statuses", o.statuses.map (fun l => .s (joinComma l))),
    ("page", o.page.map .n) ]

def searchTasksKey (query : String) (o : SearchTasksOptions) : String :=
  createCacheKey "search" (searchCacheParams query o)

def taskKey (taskId : String) (markdown : Bool) : String :=
  createCacheKey "task" [("id", some (.s taskId)), ("markdown", some (.b markdown))]

def spaceKey (spaceId : String) : String :=
  createCacheKey "space" [("id", some (.s spaceId))]

def foldersKey (spaceId : String) : String :=
  createCacheKey "folders" [("space", some (.s spaceId))]

def listsKey (folderId : String) : String :=
  createCacheKey "lists" [("folder", some (.s folderId))]

def folderlessListsKey (spaceId : String) : String :=
  createCacheKey "folderless_lists" [("space", some (.s spaceId))]

def listKey (listId : String) : String :=
  createCacheKey "list" [("id", some (.s listId))]

/-- `createCacheKey("comments", { task: taskId, ...options })` (src line 794):
the spread puts `task` first, then the pagination options. -/
def commentsKey (taskId : String) (o : CommentsOptions) : String :=
  createCacheKey "comments"
    [("task", some (.s taskId)), ("start", o.start.map .n), ("start_id", o.start_id.map .s)]

/-- `createCacheKey("time_entries", options || {})` (src line 876). -/
def timeEntriesKey (o : TimeEntriesOptions) : String :=
  createCacheKey "time_entries"
    [ ("start_date", o.start_date.map .n),
      ("end_date", o.end_date.map .n),
      ("assignee", o.assignee.map .n),
      ("include_task_tags", o.include_task_tags.map .b),
      ("include_location_names", o.include_location_names.map .b),
      ("space_id", o.space_id.map .s),
      ("folder_id", o.folder_id.map .s),
      ("list_id", o.list_id.map .s),
      ("task_id", o.task_id.map .s) ]

/-! ## Configuration loading (embedding of `ClickUpClient.constructor`) -/

structure ClickUpConfig where
  apiKey : String
  teamId : String
deriving DecidableEq

/-- The `clickup` section of `config.json` (either field may be absent). -/
structure ClickupSection where
  apiKey : Option String := none
  teamId : Option String := none
deriving DecidableEq

/-- The legacy `mcpServer.env` section. -/
structure EnvSection where
  CLICKUP_API_KEY : Option String := none
  CLICKUP_TEAM_ID : Option String := none
deriving DecidableEq

structure McpServerSection where
  env : Option EnvSection := none
deriving DecidableEq

/-- The parsed `config.json` shapes the constructor inspects. -/
structure RawConfig where
  clickup : Option ClickupSection := none
  mcpServer : Option McpServerSection := none
  teamId : Option String := none
deriving DecidableEq

/-- JavaScript falsiness of an optional string: `undefined` and `""` are falsy. -/
def jsFalsyStr : Option String → Bool
  | none => true
  | some s => s == ""

/-- JavaScript `a || b` on optional strings. -/
def jsOr (a b : Option String) : Option String := if jsFalsyStr a then b else a

def configErrorMsg : String :=
  "Missing required config in config.json: clickup.apiKey, clickup.teamId"

/-- Embedding of the constructor's credential extraction (src lines 164-189):
if `rawConfig.clickup` is present it alone is consulted; otherwise
`rawConfig.mcpServer?.env` supplies the values, with the team id falling back
to the top-level `rawConfig.teamId`; construction fails when either extracted
value is missing or empty. -/
def loadConfig (raw : RawConfig) : Except String ClickUpConfig :=
  let picked : Option String × Option String :=
    match raw.clickup with
    | some c => (c.apiKey, c.teamId)
    | none =>
      match raw.mcpServer with
      | some m =>
        match m.env with
        | some e => (e.CLICKUP_API_KEY, jsOr e.CLICKUP_TEAM_ID raw.teamId)
        | none => (none, none)
      | none => (none, none)
  if jsFalsyStr picked.1 || jsFalsyStr picked.2 then .error configErrorMsg
  else .ok ⟨picked.1.getD "", picked.2.getD ""⟩

/-! ## The client operations -/

/-- Per-process client state: the `cacheDisabled` field of the client plus the
shared cache instance. -/
structure ClientState where
  cacheDisabled : Bool
  cache : Cache
deriving DecidableEq

def initialClientState : ClientState := ⟨false, emptyCache⟩

/-- `disableCache()` (src lines 199-202). -/
def disableCacheOp (st : ClientState) : ClientState := ⟨true, cacheDisable st.cache⟩

/-- `enableCache()` (src lines 207-210). -/
def enableCacheOp (st : ClientState) : ClientState := ⟨false, cacheEnable st.cache⟩

/-- The outcome of one operation: result, new state, requests issued. -/
def OpResult : Type := Except ApiError String × ClientState × List Request

/-- A cached read: `cache.getOrFetch(key, producer, {ttl, bypassCache:
this.cacheDisabled})` where the producer performs one GET request. -/
def runCached (key : String) (req : Request) (ttl : Nat) (net : Net) (now : Nat)
    (st : ClientState) : OpResult :=
  let r := getOrFetch key req ttl st.cacheDisabled net now st.cache
  (r.1, ⟨st.cacheDisabled, r.2.1⟩, r.2.2)

def getSpaces (cfg : ClickUpConfig) (net : Net) (now : Nat) (st : ClientState) : OpResult :=
  runCached "spaces" ⟨"GET", "/team/" ++ cfg.teamId ++ "/space", none⟩ TTL_HOUR net now st

def getSpace (spaceId : String) (net : Net) (now : Nat) (st : ClientState) : OpResult :=
  runCached (spaceKey spaceId) ⟨"GET", "/space/" ++ spaceId, none⟩ TTL_HOUR net now st

def getFolders (spaceId : String) (net : Net) (now : Nat) (st : ClientState) : OpResult :=
  runCached (foldersKey spaceId) ⟨"GET", "/space/" ++ spaceId ++ "/folder", none⟩
    TTL_FIFTEEN_MINUTES net now st

def getLists (folderId : String) (net : Net) (now : Nat) (st : ClientState) : OpResult :=
  runCached (listsKey folderId) ⟨"GET", "/folder/" ++ folderId ++ "/list", none⟩
    TTL_FIFTEEN_MINUTES net now st

def getFolderlessLists (spaceId : String) (net : Net) (now : Nat) (st : ClientState) : OpResult :=
  runCached (folderlessListsKey spaceId) ⟨"GET", "/space/" ++ spaceId ++ "/list", none⟩
    TTL_FIFTEEN_MINUTES net now st

def getList (listId : String) (net : Net) (now : Nat) (st : ClientState) : OpResult :=
  runCached (listKey listId) ⟨"GET", "/list/" ++ listId, none⟩ TTL_FIFTEEN_MINUTES net now st

def getTasks (listId : String) (o : GetTasksOptions) (net : Net) (now : Nat)
    (st : ClientState) : OpResult :=
  runCached (getTasksKey listId o) ⟨"GET", getTasksEndpoint listId o, none⟩
    TTL_FIVE_MINUTES net now st

def getTask (taskId : String) (includeMarkdown : Bool) (net : Net) (now : Nat)
    (st : ClientState) : OpResult :=
  runCached (taskKey taskId includeMarkdown)
    ⟨"GET", "/task/" ++ taskId ++
      (if includeMarkdown then "?include_markdown_description=true" else ""), none⟩
    TTL_FIVE_MINUTES net now st

def searchTasks (cfg : ClickUpConfig) (query : String) (o : SearchTasksOptions) (net : Net)
    (now : Nat) (st : ClientState) : OpResult :=
  runCached (searchTasksKey query o) ⟨"GET", searchTasksEndpoint cfg.teamId query o, none⟩
    TTL_FIVE_MINUTES net now st

def getTaskComments (taskId : String) (o : CommentsOptions) (net : Net) (now : Nat)
    (st : ClientState) : OpResult :=
  runCached (commentsKey taskId o) ⟨"GET", commentsEndpoint taskId o, none⟩
    TTL_FIVE_MINUTES net now st

def getTimeEntries (cfg : ClickUpConfig) (o : TimeEntriesOptions) (net : Net) (now : Nat)
    (st : ClientState) : OpResult :=
  runCached (timeEntriesKey o) ⟨"GET", timeEntriesEndpoint cfg.teamId o, none⟩
    TTL_FIVE_MINUTES net now st

def getAuthorizedUser (net : Net) (now : Nat) (st : ClientState) : OpResult :=
  runCached "authorized_user" ⟨"GET", "/user", none⟩ TTL_HOUR net now st

def getTeamMembers (cfg : ClickUpConfig) (net : Net) (now : Nat) (st : ClientState) : OpResult :=
  runCached "team_members" ⟨"GET", "/team/" ++ cfg.teamId, none⟩ TTL_HOUR net now st

/-- `createTask` (src lines 678-703): POST, then on success invalidate the
`^tasks` and `^search` patterns. -/
def createTask (listId : String) (d : CreateTaskData) (net : Net) (st : ClientState) : OpResult :=
  let req : Request := ⟨"POST", "/list/" ++ listId ++ "/task", some (.createTaskB d)⟩
  match doRequest net req with
  | .ok v =>
    (.ok v,
      ⟨st.cacheDisabled,
        cacheInvalidatePattern (.startsWith "search")
          (cacheInvalidatePattern (.startsWith "tasks") st.cache)⟩,
      [req])
  | .error e => (.error e, st, [req])

/-- `updateTask` (src lines 738-763): PUT, then on success invalidate the two
single-task keys (markdown off and on) and the `^tasks`/`^search` patterns. -/
def updateTask (taskId : String) (d : UpdateTaskData) (net : Net) (st : ClientState) : OpResult :=
  let req : Request := ⟨"PUT", "/task/" ++ taskId, some (.updateTaskB d)⟩
  match doRequest net req with
  | .ok v =>
    (.ok v,
      ⟨st.cacheDisabled,
        cacheInvalidatePattern (.startsWith "search")
          (cacheInvalidatePattern (.startsWith "tasks")
            (cacheInvalidate (taskKey taskId true)
              (cacheInvalidate (taskKey taskId false) st.cache)))⟩,
      [req])
  | .error e => (.error e, st, [req])

/-- `deleteTask` (src lines 772-776): DELETE, then invalidate `^task` and
`^search`. -/
def deleteTask (taskId : String) (net : Net) (st : ClientState) : OpResult :=
  let req : Request := ⟨"DELETE", "/task/" ++ taskId, none⟩
  match doRequest net req with
  | .ok v =>
    (.ok v,
      ⟨st.cacheDisabled,
        cacheInvalidatePattern (.startsWith "search")
          (cacheInvalidatePattern (.startsWith "task") st.cache)⟩,
      [req])
  | .error e => (.error e, st, [req])

/-- `addComment` (src lines 826-833): POST `{comment_text, notify_all}`, then
on success invalidate the pattern `^comments.*task=<taskId>`. -/
def addComment (taskId commentText : String) (notifyAll : Bool) (net : Net)
    (st : ClientState) : OpResult :=
  let req : Request := ⟨"POST", "/task/" ++ taskId ++ "/comment",
    some (.commentB commentText notifyAll)⟩
  match doRequest net req with
  | .ok v =>
    (.ok v,
      ⟨st.cacheDisabled,
        cacheInvalidatePattern (.startsWithContains "comments" ("task=" ++ taskId)) st.cache⟩,
      [req])
  | .error e => (.error e, st, [req])

/-- `createTimeEntry` (src lines 925-945): POST `{...data, tid: taskId}` to the
workspace time-entries endpoint, then on success invalidate `^time_entries`. -/
def createTimeEntry (cfg : ClickUpConfig) (taskId : String) (d : CreateTimeEntryData)
    (net : Net) (st : ClientState) : OpResult :=
  let req : Request := ⟨"POST", "/team/" ++ cfg.teamId ++ "/time_entries",
    some (.timeEntryB d taskId)⟩
  match doRequest net req with
  | .ok v =>
    (.ok v,
      ⟨st.cacheDisabled, cacheInvalidatePattern (.startsWith "time_entries") st.cache⟩,
      [req])
  | .error e => (.error e, st, [req])

/-! ## Workspace entities and the `getAllLists` traversal -/

structure Status where
  id : Option String := none
  status : String
  type : String
  orderindex : Nat
  color : String
deriving DecidableEq

structure Space where
  id : String
  name : String
  «private» : Bool
  statuses : List Status
  multiple_assignees : Bool
deriving DecidableEq

structure SpaceRef where
  id : String
  name : String
deriving DecidableEq

structure FolderRef where
  id : String
  name : String
  hidden : Bool
deriving DecidableEq

/-- A ClickUp list record (the fields the traversal carries along). -/
structure ClickUpList where
  id : String
  name : String
  orderindex : Nat
  content : String
  task_count : Nat
  folder : Option FolderRef := none
  space : Option SpaceRef := none
deriving DecidableEq

structure Folder where
  id : String
  name : String
  orderindex : Nat
  hidden : Bool
  space : SpaceRef
  task_count : String
  lists : List ClickUpList
deriving DecidableEq

/-- The spread `{...list, spaceName, folderName}` of `getAllLists`. -/
structure AnnotatedList where
  base : ClickUpList
  spaceName : Option String
  folderName : Option String
deriving DecidableEq

/-- The typed results the four cached sub-reads of `getAllLists` produce
(`getSpaces`, `getFolderlessLists`, `getFolders`, `getLists`). -/
structure WorkspaceOracle where
  spaces : List Space
  folderlessLists : String → List ClickUpList
  folders : String → List Folder
  listsOfFolder : String → List ClickUpList

/-- The loop body of `getAllLists` (src lines 1031-1044): per space, push the
folderless lists annotated with the space name, then per folder push its lists
annotated with space and folder names; `allLists.push(x)` is `acc ++ [x]`. -/
def getAllListsGo (O : WorkspaceOracle) : List Space → List AnnotatedList → List AnnotatedList
  | [], acc => acc
  | s :: rest, acc =>
    let acc1 := (O.folderlessLists s.id).foldl
      (fun a l => a ++ [⟨l, some s.name, none⟩]) acc
    let acc2 := (O.folders s.id).foldl
      (fun a f => (O.listsOfFolder f.id).foldl
        (fun a2 l => a2 ++ [⟨l, some s.name, some f.name⟩]) a) acc1
    getAllListsGo O rest acc2

/-- `getAllLists` (src lines 1027-1047). -/
def getAllLists (O : WorkspaceOracle) : List AnnotatedList := getAllListsGo O O.spaces []

/-! ## Request builders (the requests each operation issues) -/

def spacesRequest (cfg : ClickUpConfig) : Request :=
  ⟨"GET", "/team/" ++ cfg.teamId ++ "/space", none⟩

def getTaskRequest (taskId : String) (includeMarkdown : Bool) : Request :=
  ⟨"GET", "/task/" ++ taskId ++
    (if includeMarkdown then "?include_markdown_description=true" else ""), none⟩

def getTasksRequest (listId : String) (o : GetTasksOptions) : Request :=
  ⟨"GET", getTasksEndpoint listId o, none⟩

def createTaskRequest (listId : String) (d : CreateTaskData) : Request :=
  ⟨"POST", "/list/" ++ listId ++ "/task", some (.createTaskB d)⟩

def updateTaskRequest (taskId : String) (d : UpdateTaskData) : Request :=
  ⟨"PUT", "/task/" ++ taskId, some (.updateTaskB d)⟩

def addCommentRequest (taskId commentText : String) (notifyAll : Bool) : Request :=
  ⟨"POST", "/task/" ++ taskId ++ "/comment", some (.commentB commentText notifyAll)⟩

def createTimeEntryRequest (cfg : ClickUpConfig) (taskId : String)
    (d : CreateTimeEntryData) : Request :=
  ⟨"POST", "/team/" ++ cfg.teamId ++ "/time_entries", some (.timeEntryB d taskId)⟩

/-! ## Helper lemmas about the cached-read path -/

theorem cacheLookup_store_same (key v : String) (ttl now : Nat) (c : Cache) :
    cacheLookup (cacheStore key v ttl now c) key = some ⟨v, now + ttl⟩ := by
  simp [cacheLookup, cacheStore, alookup]

theorem runCached_miss (key : String) (req : Request) (ttl : Nat) (net : Net) (now : Nat)
    (st : ClientState) (hb : st.cacheDisabled = false) (he : st.cache.enabled = true)
    (hl : cacheLookup st.cache key = none) (hok : respOk (net req)) :
    runCached key req ttl net now st =
      (.ok (net req).body, ⟨false, cacheStore key (net req).body ttl now st.cache⟩, [req]) := by
  unfold runCached getOrFetch
  rw [hb, he, hl]
  simp only [Bool.false_or, Bool.not_true, Bool.false_eq_true, if_false]
  rw [doRequest, if_pos hok]

theorem runCached_hit (key : String) (req : Request) (ttl : Nat) (net : Net) (now : Nat)
    (st : ClientState) (e : CacheEntry) (hb : st.cacheDisabled = false)
    (he : st.cache.enabled = true) (hl : cacheLookup st.cache key = some e)
    (hexp : now < e.expires) :
    runCached key req ttl net now st = (.ok e.val, ⟨st.cacheDisabled, st.cache⟩, []) := by
  unfold runCached getOrFetch
  rw [hb, he, hl]
  simp [hexp, hb]

theorem runCached_bypass (key : String) (req : Request) (ttl : Nat) (net : Net) (now : Nat)
    (st : ClientState) (hb : st.cacheDisabled = true) :
    runCached key req ttl net now st = (doRequest net req, ⟨true, st.cache⟩, [req]) := by
  unfold runCached getOrFetch
  rw [hb]
  simp [hb]

theorem runCached_fetches_of_lookup_none (key : String) (req : Request) (ttl : Nat)
    (net : Net) (now : Nat) (st : ClientState) (hl : cacheLookup st.cache key = none) :
    (runCached key req ttl net now st).2.2 = [req] := by
  unfold runCached getOrFetch
  by_cases hb : (st.cacheDisabled || !st.cache.enabled) = true
  · simp [hb]
  · simp only [Bool.not_eq_true] at hb
    rw [hb]
    simp only [Bool.false_eq_true, if_false]
    rw [hl]
    cases doRequest net req <;> simp

/-- The data of a derived cache key: operation name, `:`, joined entries. -/
theorem createCacheKey_data (op : String) (ps : List (String × Option PVal)) :
    (createCacheKey op ps).data =
      op.data ++ ':' :: joinSep '|' (List.insertionSort llLe ((definedSer ps).map encData)) := by
  unfold createCacheKey
  rw [String.data_append, String.data_append, List.append_assoc]
  rfl

theorem prefixB_createCacheKey (op : String) (ps : List (String × Option PVal)) :
    prefixB op (createCacheKey op ps) = true := by
  rw [prefixB, createCacheKey_data, List.isPrefixOf_iff_prefix]
  exact List.prefix_append _ _

theorem isInfixB_iff (n : List Char) : ∀ h : List Char, isInfixB n h = true ↔ n <:+: h := by
  intro h
  induction h with
  | nil =>
    rw [isInfixB, List.isPrefixOf_iff_prefix]
    constructor
    · exact fun hp => hp.isInfix
    · intro hi
      rw [List.infix_nil.mp hi]
  | cons c t ih =>
    rw [isInfixB, Bool.or_eq_true, List.isPrefixOf_iff_prefix, ih, List.infix_cons_iff]

theorem runCached_miss_error (key : String) (req : Request) (ttl : Nat) (net : Net)
    (now : Nat) (st : ClientState) (hb : st.cacheDisabled = false)
    (he : st.cache.enabled = true) (hl : cacheLookup st.cache key = none)
    (hbad : ¬ respOk (net req)) :
    runCached key req ttl net now st =
      (.error ⟨(net req).status, (net req).body⟩, ⟨st.cacheDisabled, st.cache⟩, [req]) := by
  unfold runCached getOrFetch
  rw [hb, he, hl]
  simp only [Bool.false_or, Bool.not_true, Bool.false_eq_true, if_false]
  rw [doRequest, if_neg hbad]

theorem apiError_message_has_body (e : ApiError) :
    isInfixB e.body.data e.message.data = true := by
  rw [isInfixB_iff, ApiError.message, String.data_append]
  exact (List.suffix_append _ _).isInfix

/-- C6.  Error surfacing: for every request and response, a non-2xx status
makes the transport fail with the error carrying the HTTP status code and the
raw body text (the error message contains the body), a 2xx status returns the
response body (JSON parsing modelled as identity), and a single operation
issues exactly one fetch (no retry) — in particular a 404 on `getTask`
surfaces as that error rather than a silently missing task. -/
theorem request_error_surfacing :
    (∀ (net : Net) (req : Request),
      (¬ respOk (net req) →
        doRequest net req = .error ⟨(net req).status, (net req).body⟩ ∧
        isInfixB (net req).body.data
          (ApiError.message ⟨(net req).status, (net req).body⟩).data = true) ∧
      (respOk (net req) → doRequest net req = .ok (net req).body)) ∧
    (∀ (taskId : String) (md : Bool) (net : Net) (now : Nat),
      ¬ respOk (net (getTaskRequest taskId md)) →
      (getTask taskId md net now initialClientState).1 =
        .error ⟨(net (getTaskRequest taskId md)).status, (net (getTaskRequest taskId md)).body⟩ ∧
      (getTask taskId md net now initialClientState).2.2 = [getTaskRequest taskId md]) := by
  constructor
  · intro net req
    constructor
    · intro hbad
      refine ⟨?_, apiError_message_has_body ⟨(net req).status, (net req).body⟩⟩
      rw [doRequest, if_neg hbad]
    · intro hok
      rw [doRequest, if_pos hok]
  · intro taskId md net now hbad
    have h := runCached_miss_error (taskKey taskId md) (getTaskRequest taskId md)
      TTL_FIVE_MINUTES net now initialClientState rfl rfl rfl hbad
    unfold getTask
    rw [show (⟨"GET", "/task/" ++ taskId ++
        (if md then "?include_markdown_description=true" else ""), none⟩ : Request) =
      getTaskRequest taskId md from rfl]
    rw [h]
    exact ⟨rfl, rfl⟩

/-- Witness for C6 at a concrete 404 response. -/
theorem request_error_surfacing_witness :
    let net : Net := fun _ => ⟨404, "task not found"⟩
    ¬ respOk (net (getTaskRequest "missing-id" false)) ∧
    (getTask "missing-id" false net 0 initialClientState).1 =
      .error ⟨404, "task not found"⟩ := by
  intro net
  refine ⟨by decide, ?_⟩
  exact (request_error_surfacing.2 "missing-id" false net 0 (by decide)).1

/-- A configuration on which the claim "if either shape yields both values,
construction succeeds" fails: the direct `clickup` section is present but
incomplete (no team id), while the legacy `mcpServer.env` shape yields both
values. -/
def c7raw : RawConfig :=
  { clickup := some { apiKey := some "key-direct", teamId := none },
    mcpServer := some { env := some { CLICKUP_API_KEY := some "key-legacy",
                                      CLICKUP_TEAM_ID := some "team-legacy" } },
    teamId := none }

/-- Counterexample to C7 as stated: the legacy shape of `c7raw` yields both a
non-empty credential and a non-empty workspace id, yet construction fails,
because the presence of the (incomplete) direct section short-circuits the
legacy fallback. -/
theorem loadConfig_either_shape_counterexample :
    (∃ m e, c7raw.mcpServer = some m ∧ m.env = some e ∧
      jsFalsyStr e.CLICKUP_API_KEY = false ∧
      jsFalsyStr (jsOr e.CLICKUP_TEAM_ID c7raw.teamId) = false) ∧
    loadConfig c7raw = .error configErrorMsg := by
  refine ⟨⟨_, _, rfl, rfl, by decide, by decide⟩, rfl⟩

/-- C7 (amended).  The constructor consults the direct `clickup` shape
whenever it is present; only otherwise does it consult the legacy
`mcpServer.env` shape, with the workspace id falling back to the top-level
`teamId`.  Construction succeeds iff the consulted shape yields both a
non-falsy credential and a non-falsy workspace id — in which case those are
the configured values — and otherwise fails, before any network activity,
with the fixed error message naming the two required fields. -/
theorem loadConfig_characterization (raw : RawConfig) :
    (∀ c, raw.clickup = some c →
      (jsFalsyStr c.apiKey = false ∧ jsFalsyStr c.teamId = false →
        loadConfig raw = .ok ⟨c.apiKey.getD "", c.teamId.getD ""⟩) ∧
      (jsFalsyStr c.apiKey = true ∨ jsFalsyStr c.teamId = true →
        loadConfig raw = .error configErrorMsg)) ∧
    (raw.clickup = none → ∀ m e, raw.mcpServer = some m → m.env = some e →
      (jsFalsyStr e.CLICKUP_API_KEY = false ∧
          jsFalsyStr (jsOr e.CLICKUP_TEAM_ID raw.teamId) = false →
        loadConfig raw =
          .ok ⟨e.CLICKUP_API_KEY.getD "", (jsOr e.CLICKUP_TEAM_ID raw.teamId).getD ""⟩) ∧
      (jsFalsyStr e.CLICKUP_API_KEY = true ∨
          jsFalsyStr (jsOr e.CLICKUP_TEAM_ID raw.teamId) = true →
        loadConfig raw = .error configErrorMsg)) ∧
    (raw.clickup = none → (raw.mcpServer = none ∨ ∃ m, raw.mcpServer = some m ∧ m.env = none) →
      loadConfig raw = .error configErrorMsg) := by
  refine ⟨?_, ?_, ?_⟩
  · intro c hc
    constructor
    · intro ⟨h1, h2⟩
      simp [loadConfig, hc, h1, h2]
    · intro h
      rcases h with h | h <;> simp [loadConfig, hc, h]
  · intro hc m e hm he
    constructor
    · intro ⟨h1, h2⟩
      simp [loadConfig, hc, hm, he, h1, h2]
    · intro h
      rcases h with h | h <;> simp [loadConfig, hc, hm, he, h]
  · intro hc hm
    rcases hm with hm | ⟨m, hm, henv⟩
    · simp [loadConfig, hc, hm, jsFalsyStr]
    · simp [loadConfig, hc, hm, henv, jsFalsyStr]

/-- Witness for C7 at concrete configurations: a complete direct shape
succeeds with its values; a missing team id fails with the descriptive
message. -/
theorem loadConfig_characterization_witness :
    loadConfig { clickup := some { apiKey := some "k", teamId := some "t" } } =
      .ok ⟨"k", "t"⟩ ∧
    loadConfig { clickup := some { apiKey := some "k", teamId := none } } =
      .error configErrorMsg := by
  constructor
  · exact ((loadConfig_characterization
      { clickup := some { apiKey := some "k", teamId := some "t" } }).1
      { apiKey := some "k", teamId := some "t" } rfl).1 ⟨by decide, by decide⟩
  · exact ((loadConfig_characterization
      { clickup := some { apiKey := some "k", teamId := none } }).1
      { apiKey := some "k", teamId := none } rfl).2 (Or.inr (by decide))

theorem foldl_push_map {α β : Type} (g : α → β) :
    ∀ (l : List α) (acc : List β), l.foldl (fun a x => a ++ [g x]) acc = acc ++ l.map g := by
  intro l
  induction l with
  | nil => intro acc; simp
  | cons x t ih =>
    intro acc
    rw [List.foldl_cons, ih, List.map_cons]
    simp

theorem foldl_folder_lists (O : WorkspaceOracle) (sname : String) :
    ∀ (fs : List Folder) (acc : List AnnotatedList),
      fs.foldl (fun a f => (O.listsOfFolder f.id).foldl
        (fun a2 l => a2 ++ [⟨l, some sname, some f.name⟩]) a) acc
      = acc ++ fs.flatMap (fun f => (O.listsOfFolder f.id).map
          (fun l => AnnotatedList.mk l (some sname) (some f.name))) := by
  intro fs
  induction fs with
  | nil => intro acc; simp
  | cons f t ih =>
    intro acc
    rw [List.foldl_cons, ih,
      foldl_push_map (fun l => AnnotatedList.mk l (some sname) (some f.name))]
    simp

theorem getAllListsGo_spec (O : WorkspaceOracle) :
    ∀ (ss : List Space) (acc : List AnnotatedList),
      getAllListsGo O ss acc = acc ++ ss.flatMap (fun s =>
        (O.folderlessLists s.id).map (fun l => AnnotatedList.mk l (some s.name) none)
        ++ (O.folders s.id).flatMap (fun f =>
          (O.listsOfFolder f.id).map (fun l => AnnotatedList.mk l (some s.name) (some f.name)))) := by
  intro ss
  induction ss with
  | nil => intro acc; simp [getAllListsGo]
  | cons s rest ih =>
    intro acc
    rw [getAllListsGo, foldl_push_map (fun l => AnnotatedList.mk l (some s.name) none),
      foldl_folder_lists, ih]
    simp

/-- C8.  Workspace list traversal: `getAllLists` returns, for every space in
the order `getSpaces` returned them, first that space's folderless lists
annotated with the owning space name, then for each folder in order the
folder's lists annotated with both the space and folder names.  The result is
exactly this concatenation of the sub-reads' answers, so no deduplication
happens: overlapping records returned by the remote service appear once per
occurrence. -/
theorem getAllLists_traversal (O : WorkspaceOracle) :
    getAllLists O = O.spaces.flatMap (fun s =>
      (O.folderlessLists s.id).map (fun l => AnnotatedList.mk l (some s.name) none)
      ++ (O.folders s.id).flatMap (fun f =>
        (O.listsOfFolder f.id).map (fun l => AnnotatedList.mk l (some s.name) (some f.name)))) := by
  rw [getAllLists, getAllListsGo_spec]
  rfl

theorem runCached_twice (key : String) (req : Request) (ttl : Nat) (net : Net) (now : Nat)
    (httl : 0 < ttl) (hok : respOk (net req)) :
    (runCached key req ttl net now initialClientState).2.2 = [req] ∧
    (runCached key req ttl net now
      (runCached key req ttl net now initialClientState).2.1).2.2 = [] ∧
    (runCached key req ttl net now
      (runCached key req ttl net now initialClientState).2.1).1 =
      (runCached key req ttl net now initialClientState).1 := by
  have h1 : runCached key req ttl net now initialClientState =
      (.ok (net req).body, ⟨false, cacheStore key (net req).body ttl now emptyCache⟩, [req]) :=
    runCached_miss key req ttl net now initialClientState rfl rfl rfl hok
  have h2 : runCached key req ttl net now
      ⟨false, cacheStore key (net req).body ttl now emptyCache⟩ =
      (.ok (net req).body, ⟨false, cacheStore key (net req).body ttl now emptyCache⟩, []) :=
    runCached_hit key req ttl net now
      ⟨false, cacheStore key (net req).body ttl now emptyCache⟩
      ⟨(net req).body, now + ttl⟩ rfl rfl (cacheLookup_store_same _ _ _ _ _)
      (show now < now + ttl by omega)
  have e1 : (runCached key req ttl net now initialClientState).2.1 =
      ⟨false, cacheStore key (net req).body ttl now emptyCache⟩ := by rw [h1]
  refine ⟨by rw [h1], by rw [e1, h2], by rw [e1, h2, h1]⟩

theorem runCached_disabled (key : String) (req : Request) (ttl : Nat) (net : Net) (now : Nat)
    (st : ClientState) :
    (runCached key req ttl net now (disableCacheOp st)).2.2 = [req] := by
  rw [runCached_bypass key req ttl net now (disableCacheOp st) rfl]

/-- C2.  Read-through correctness: from a fresh (empty, enabled) cache, calling
`getSpaces`, `getTask` or `getTasks` twice with identical parameters issues the
network request exactly once (the second call issues none) and returns the
same result; after `disableCache()`, every invocation issues the network
request (the bypass flag is passed to every `getOrFetch`). -/
theorem read_through_correctness :
    (∀ (cfg : ClickUpConfig) (net : Net) (now : Nat),
      respOk (net (spacesRequest cfg)) →
      (getSpaces cfg net now initialClientState).2.2 = [spacesRequest cfg] ∧
      (getSpaces cfg net now (getSpaces cfg net now initialClientState).2.1).2.2 = [] ∧
      (getSpaces cfg net now (getSpaces cfg net now initialClientState).2.1).1 =
        (getSpaces cfg net now initialClientState).1) ∧
    (∀ (taskId : String) (md : Bool) (net : Net) (now : Nat),
      respOk (net (getTaskRequest taskId md)) →
      (getTask taskId md net now initialClientState).2.2 = [getTaskRequest taskId md] ∧
      (getTask taskId md net now (getTask taskId md net now initialClientState).2.1).2.2 = [] ∧
      (getTask taskId md net now (getTask taskId md net now initialClientState).2.1).1 =
        (getTask taskId md net now initialClientState).1) ∧
    (∀ (listId : String) (o : GetTasksOptions) (net : Net) (now : Nat),
      respOk (net (getTasksRequest listId o)) →
      (getTasks listId o net now initialClientState).2.2 = [getTasksRequest listId o] ∧
      (getTasks listId o net now (getTasks listId o net now initialClientState).2.1).2.2 = [] ∧
      (getTasks listId o net now (getTasks listId o net now initialClientState).2.1).1 =
        (getTasks listId o net now initialClientState).1) ∧
    (∀ (cfg : ClickUpConfig) (net : Net) (now : Nat) (st : ClientState),
      (getSpaces cfg net now (disableCacheOp st)).2.2 = [spacesRequest cfg]) ∧
    (∀ (taskId : String) (md : Bool) (net : Net) (now : Nat) (st : ClientState),
      (getTask taskId md net now (disableCacheOp st)).2.2 = [getTaskRequest taskId md]) ∧
    (∀ (listId : String) (o : GetTasksOptions) (net : Net) (now : Nat) (st : ClientState),
      (getTasks listId o net now (disableCacheOp st)).2.2 = [getTasksRequest listId o]) := by
  refine ⟨?_, ?_, ?_, ?_, ?_, ?_⟩
  · intro cfg net now hok
    exact runCached_twice _ _ TTL_HOUR net now (by decide) hok
  · intro taskId md net now hok
    exact runCached_twice _ _ TTL_FIVE_MINUTES net now (by decide) hok
  · intro listId o net now hok
    exact runCached_twice _ _ TTL_FIVE_MINUTES net now (by decide) hok
  · intro cfg net now st
    exact runCached_disabled _ _ _ _ _ _
  · intro taskId md net now st
    exact runCached_disabled _ _ _ _ _ _
  · intro listId o net now st
    exact runCached_disabled _ _ _ _ _ _

/-- Witness for C2 at a concrete network and parameters. -/
theorem read_through_correctness_witness :
    let cfg : ClickUpConfig := ⟨"key", "team1"⟩
    let net : Net := fun _ => ⟨200, "YES"⟩
    respOk (net (spacesRequest cfg)) ∧
    ((getSpaces cfg net 7 initialClientState).2.2 = [spacesRequest cfg] ∧
      (getSpaces cfg net 7 (getSpaces cfg net 7 initialClientState).2.1).2.2 = [] ∧
      (getSpaces cfg net 7 (getSpaces cfg net 7 initialClientState).2.1).1 =
        (getSpaces cfg net 7 initialClientState).1) := by
  intro cfg net
  exact ⟨by decide, read_through_correctness.1 cfg net 7 (by decide)⟩

def searchTasksRequest (cfg : ClickUpConfig) (query : String) (o : SearchTasksOptions) : Request :=
  ⟨"GET", searchTasksEndpoint cfg.teamId query o, none⟩

theorem cacheLookup_invalidatePattern_none (pat : CachePat) (c : Cache) (k : String)
    (h : cacheLookup c k = none) : cacheLookup (cacheInvalidatePattern pat c) k = none := by
  by_cases hm : patMatches pat k = true
  · exact cacheLookup_invalidatePattern_of_match pat c k hm
  · rw [cacheLookup_invalidatePattern_of_not_match pat c k (by simpa using hm)]
    exact h

theorem cacheLookup_invalidate_none (key : String) (c : Cache) (k : String)
    (h : cacheLookup c k = none) : cacheLookup (cacheInvalidate key c) k = none := by
  by_cases hk : k = key
  · rw [hk]
    exact cacheLookup_invalidate_same key c
  · rw [cacheLookup_invalidate_other key k c hk]
    exact h

theorem createTask_run (listId : String) (d : CreateTaskData) (net : Net) (st : ClientState)
    (hok : respOk (net (createTaskRequest listId d))) :
    createTask listId d net st =
      (.ok (net (createTaskRequest listId d)).body,
        ⟨st.cacheDisabled,
          cacheInvalidatePattern (.startsWith "search")
            (cacheInvalidatePattern (.startsWith "tasks") st.cache)⟩,
        [createTaskRequest listId d]) := by
  simp only [createTask]
  rw [show doRequest net
      { method := "POST", path := "/list/" ++ listId ++ "/task",
        body := some (.createTaskB d) } =
    .ok (net (createTaskRequest listId d)).body from by
      rw [doRequest]
      exact if_pos hok]
  rfl

/-- C3.  Invalidation completeness for task creation: after a successful
`createTask`, every cached entry whose key begins with `tasks` or with
`search` is gone, so a subsequent `getTasks` or `searchTasks` (whose keys
carry exactly those prefixes) must issue a fresh network request. -/
theorem createTask_invalidation (listId : String) (d : CreateTaskData) (net : Net)
    (st : ClientState) (hok : respOk (net (createTaskRequest listId d))) :
    (∀ k : String, prefixB "tasks" k = true ∨ prefixB "search" k = true →
      cacheLookup (createTask listId d net st).2.1.cache k = none) ∧
    (∀ (listId' : String) (o' : GetTasksOptions) (now : Nat),
      (getTasks listId' o' net now (createTask listId d net st).2.1).2.2 =
        [getTasksRequest listId' o']) ∧
    (∀ (cfg : ClickUpConfig) (q : String) (o' : SearchTasksOptions) (now : Nat),
      (searchTasks cfg q o' net now (createTask listId d net st).2.1).2.2 =
        [searchTasksRequest cfg q o']) := by
  rw [createTask_run listId d net st hok]
  have hlook : ∀ k : String, prefixB "tasks" k = true ∨ prefixB "search" k = true →
      cacheLookup
        (cacheInvalidatePattern (.startsWith "search")
          (cacheInvalidatePattern (.startsWith "tasks") st.cache)) k = none := by
    intro k hk
    rcases hk with hk | hk
    · exact cacheLookup_invalidatePattern_none _ _ _
        (cacheLookup_invalidatePattern_of_match _ _ _ hk)
    · exact cacheLookup_invalidatePattern_of_match _ _ _ hk
  refine ⟨hlook, ?_, ?_⟩
  · intro listId' o' now
    exact runCached_fetches_of_lookup_none _ _ _ _ _ _
      (hlook _ (Or.inl (prefixB_createCacheKey "tasks" _)))
  · intro cfg q o' now
    exact runCached_fetches_of_lookup_none _ _ _ _ _ _
      (hlook _ (Or.inr (prefixB_createCacheKey "search" _)))

/-- Witness for C3 at a concrete successful creation. -/
theorem createTask_invalidation_witness :
    let net : Net := fun _ => ⟨200, "{}"⟩
    let st : ClientState := ⟨false, ⟨[("tasks:list=L", ⟨"old", 99⟩)], true⟩⟩
    respOk (net (createTaskRequest "L" { name := "x" })) ∧
    prefixB "tasks" "tasks:list=L" = true ∧
    cacheLookup (createTask "L" { name := "x" } net st).2.1.cache "tasks:list=L" = none := by
  intro net st
  exact ⟨by decide, by decide,
    (createTask_invalidation "L" { name := "x" } net st (by decide)).1
      "tasks:list=L" (Or.inl (by decide))⟩

theorem updateTask_run (taskId : String) (d : UpdateTaskData) (net : Net) (st : ClientState)
    (hok : respOk (net (updateTaskRequest taskId d))) :
    updateTask taskId d net st =
      (.ok (net (updateTaskRequest taskId d)).body,
        ⟨st.cacheDisabled,
          cacheInvalidatePattern (.startsWith "search")
            (cacheInvalidatePattern (.startsWith "tasks")
              (cacheInvalidate (taskKey taskId true)
                (cacheInvalidate (taskKey taskId false) st.cache)))⟩,
        [updateTaskRequest taskId d]) := by
  simp only [updateTask]
  rw [show doRequest net
      { method := "PUT", path := "/task/" ++ taskId, body := some (.updateTaskB d) } =
    .ok (net (updateTaskRequest taskId d)).body from by
      rw [doRequest]
      exact if_pos hok]
  rfl

/-- C4.  Targeted task invalidation: after a successful `updateTask`, both the
markdown-on and markdown-off cached single-task entries for that task id are
gone (whatever markdown flag any earlier `getTask` used, its key is one of
these two), and every cached entry whose key begins with `tasks` or `search`
is gone as well. -/
theorem updateTask_invalidation (taskId : String) (d : UpdateTaskData) (net : Net)
    (st : ClientState) (hok : respOk (net (updateTaskRequest taskId d))) :
    (∀ md : Bool,
      cacheLookup (updateTask taskId d net st).2.1.cache (taskKey taskId md) = none) ∧
    (∀ k : String, prefixB "tasks" k = true ∨ prefixB "search" k = true →
      cacheLookup (updateTask taskId d net st).2.1.cache k = none) := by
  rw [updateTask_run taskId d net st hok]
  constructor
  · intro md
    apply cacheLookup_invalidatePattern_none
    apply cacheLookup_invalidatePattern_none
    cases md
    · exact cacheLookup_invalidate_none _ _ _ (cacheLookup_invalidate_same _ _)
    · exact cacheLookup_invalidate_same _ _
  · intro k hk
    rcases hk with hk | hk
    · exact cacheLookup_invalidatePattern_none _ _ _
        (cacheLookup_invalidatePattern_of_match _ _ _ hk)
    · exact cacheLookup_invalidatePattern_of_match _ _ _ hk

/-- Witness for C4: updating with the markdown-off flag cached earlier, both
single-task entries are invalidated. -/
theorem updateTask_invalidation_witness :
    let net : Net := fun _ => ⟨200, "{}"⟩
    let st : ClientState :=
      ⟨false, ⟨[(taskKey "abc" false, ⟨"v0", 99⟩), (taskKey "abc" true, ⟨"v1", 99⟩)], true⟩⟩
    respOk (net (updateTaskRequest "abc" { status := some "complete" })) ∧
    cacheLookup (updateTask "abc" { status := some "complete" } net st).2.1.cache
      (taskKey "abc" false) = none ∧
    cacheLookup (updateTask "abc" { status := some "complete" } net st).2.1.cache
      (taskKey "abc" true) = none := by
  intro net st
  refine ⟨by decide, ?_, ?_⟩
  · exact (updateTask_invalidation "abc" { status := some "complete" } net st (by decide)).1 false
  · exact (updateTask_invalidation "abc" { status := some "complete" } net st (by decide)).1 true

def commentsRequest (taskId : String) (o : CommentsOptions) : Request :=
  ⟨"GET", commentsEndpoint taskId o, none⟩

theorem infix_joinSep (sep : Char) : ∀ (l : List (List Char)) (x : List Char),
    x ∈ l → x <:+: joinSep sep l := by
  intro l
  induction l with
  | nil => intro x hx; simp at hx
  | cons a t ih =>
    intro x hx
    rw [List.mem_cons] at hx
    rcases hx with rfl | hx
    · rw [joinSep_cons]
      exact (List.prefix_append _ _).isInfix
    · rw [joinSep_cons]
      cases t with
      | nil => simp at hx
      | cons b bt =>
        obtain ⟨s, t', ht⟩ := ih x hx
        exact ⟨a ++ sep :: s, t', by rw [← ht]; simp [sepTail]⟩

theorem commentsKey_matches (taskId : String) (o : CommentsOptions) :
    patMatches (.startsWithContains "comments" ("task=" ++ taskId))
      (commentsKey taskId o) = true := by
  rw [patMatches, Bool.and_eq_true]
  constructor
  · exact prefixB_createCacheKey "comments" _
  · rw [commentsKey, createCacheKey_data]
    rw [show ("comments" : String).data.length = ("comments" : String).data.length from rfl]
    rw [List.drop_left]
    rw [isInfixB_iff]
    have hel : ("task", serPVal (.s taskId)) ∈
        definedSer [("task", some (.s taskId)), ("start", o.start.map .n),
          ("start_id", o.start_id.map .s)] := by
      rw [definedSer, List.filterMap_cons]
      exact List.mem_cons_self _ _
    have hmem : encData ("task", serPVal (.s taskId)) ∈
        List.insertionSort llLe ((definedSer [("task", some (.s taskId)),
          ("start", o.start.map .n), ("start_id", o.start_id.map .s)]).map encData) :=
      (List.perm_insertionSort llLe _).symm.mem_iff.mp (List.mem_map_of_mem encData hel)
    have hinf := infix_joinSep '|' _ _ hmem
    have hdata : ("task=" ++ taskId).data = encData ("task", serPVal (.s taskId)) := by
      rw [String.data_append]
      rfl
    rw [hdata]
    exact (List.infix_cons_iff).mpr (Or.inr hinf)

theorem addComment_run (taskId commentText : String) (notifyAll : Bool) (net : Net)
    (st : ClientState) (hok : respOk (net (addCommentRequest taskId commentText notifyAll))) :
    addComment taskId commentText notifyAll net st =
      (.ok (net (addCommentRequest taskId commentText notifyAll)).body,
        ⟨st.cacheDisabled,
          cacheInvalidatePattern (.startsWithContains "comments" ("task=" ++ taskId)) st.cache⟩,
        [addCommentRequest taskId commentText notifyAll]) := by
  simp only [addComment]
  rw [show doRequest net
      { method := "POST", path := "/task/" ++ taskId ++ "/comment",
        body := some (.commentB commentText notifyAll) } =
    .ok (net (addCommentRequest taskId commentText notifyAll)).body from by
      rw [doRequest]
      exact if_pos hok]
  rfl

/-- C9.  Comment invalidation scoping: after a successful `addComment` for a
task, every cached comments entry for that task id — the key `getTaskComments`
derives for any pagination options — is invalidated, so a subsequent
`getTaskComments` for the task re-fetches; the POST body carries the given
comment text and notify flag. -/
theorem addComment_invalidation (taskId commentText : String) (notifyAll : Bool) (net : Net)
    (st : ClientState) (hok : respOk (net (addCommentRequest taskId commentText notifyAll))) :
    (∀ o : CommentsOptions,
      cacheLookup (addComment taskId commentText notifyAll net st).2.1.cache
        (commentsKey taskId o) = none) ∧
    (∀ (o : CommentsOptions) (now : Nat),
      (getTaskComments taskId o net now
        (addComment taskId commentText notifyAll net st).2.1).2.2 = [commentsRequest taskId o]) ∧
    (addComment taskId commentText notifyAll net st).2.2 =
      [addCommentRequest taskId commentText notifyAll] ∧
    (addCommentRequest taskId commentText notifyAll).body =
      some (.commentB commentText notifyAll) := by
  rw [addComment_run taskId commentText notifyAll net st hok]
  have hlook : ∀ o : CommentsOptions,
      cacheLookup
        (cacheInvalidatePattern (.startsWithContains "comments" ("task=" ++ taskId)) st.cache)
        (commentsKey taskId o) = none :=
    fun o => cacheLookup_invalidatePattern_of_match _ _ _ (commentsKey_matches taskId o)
  exact ⟨hlook,
    fun o now => runCached_fetches_of_lookup_none _ _ _ _ _ _ (hlook o),
    rfl, rfl⟩

/-- Witness for C9 at a concrete comment and cache state. -/
theorem addComment_invalidation_witness :
    let net : Net := fun _ => ⟨200, "{}"⟩
    let st : ClientState := ⟨false, ⟨[(commentsKey "abc" {}, ⟨"old", 99⟩)], true⟩⟩
    respOk (net (addCommentRequest "abc" "done" true)) ∧
    cacheLookup (addComment "abc" "done" true net st).2.1.cache (commentsKey "abc" {}) = none := by
  intro net st
  exact ⟨by decide,
    (addComment_invalidation "abc" "done" true net st (by decide)).1 {}⟩

theorem prefix_colon_free : ∀ (a p J : List Char), ':' ∉ p →
    (p <+: (a ++ ':' :: J) ↔ p <+: a) := by
  intro a
  induction a with
  | nil =>
    intro p J hp
    constructor
    · intro h
      cases p with
      | nil => exact List.nil_prefix
      | cons d p' =>
        rw [List.nil_append, List.cons_prefix_cons] at h
        exact absurd (h.1 ▸ List.mem_cons_self d p') (by simpa [h.1] using hp)
    · intro h
      rw [List.prefix_nil.mp h]
      exact List.nil_prefix
  | cons c a' ih =>
    intro p J hp
    cases p with
    | nil => simp
    | cons d p' =>
      have hp' : ':' ∉ p' := fun h => hp (List.mem_cons_of_mem d h)
      rw [List.cons_append, List.cons_prefix_cons, List.cons_prefix_cons, ih p' J hp']

theorem prefixB_createCacheKey_iff (p op : String) (ps : List (String × Option PVal))
    (hp : ':' ∉ p.data) :
    prefixB p (createCacheKey op ps) = true ↔ p.data <+: op.data := by
  rw [prefixB, createCacheKey_data, List.isPrefixOf_iff_prefix, prefix_colon_free _ _ _ hp]

theorem prefixB_key_false (p op : String) (ps : List (String × Option PVal))
    (hp : ':' ∉ p.data) (h : p.data.isPrefixOf op.data = false) :
    prefixB p (createCacheKey op ps) = false := by
  rw [Bool.eq_false_iff]
  intro htrue
  have h2 := (prefixB_createCacheKey_iff p op ps hp).mp htrue
  rw [← List.isPrefixOf_iff_prefix, h] at h2
  exact absurd h2 (by simp)

theorem createCacheKey_ne (op1 op2 : String) (ps1 ps2 : List (String × Option PVal))
    (hp : ':' ∉ op2.data) (h : op2.data.isPrefixOf op1.data = false) :
    createCacheKey op1 ps1 ≠ createCacheKey op2 ps2 := by
  intro heq
  have h1 : prefixB op2 (createCacheKey op1 ps1) = true := by
    rw [heq]
    exact prefixB_createCacheKey op2 ps2
  rw [prefixB_key_false op2 op1 ps1 hp h] at h1
  exact absurd h1 (by simp)

theorem literal_ne_key (s op : String) (ps : List (String × Option PVal))
    (h : prefixB op s = false) : s ≠ createCacheKey op ps := by
  intro heq
  rw [heq, prefixB_createCacheKey op ps] at h
  exact absurd h (by simp)

/-- All family keys the spec's write-frame column says are untouched by task
writes: `spaces`, `space`, `folders`, `lists`, `folderless_lists`, `list`,
`comments` and `time_entries` entries look up the same before and after. -/
def FamiliesUnchanged (c1 c0 : Cache) : Prop :=
  cacheLookup c1 "spaces" = cacheLookup c0 "spaces" ∧
  (∀ i, cacheLookup c1 (spaceKey i) = cacheLookup c0 (spaceKey i)) ∧
  (∀ i, cacheLookup c1 (foldersKey i) = cacheLookup c0 (foldersKey i)) ∧
  (∀ i, cacheLookup c1 (listsKey i) = cacheLookup c0 (listsKey i)) ∧
  (∀ i, cacheLookup c1 (folderlessListsKey i) = cacheLookup c0 (folderlessListsKey i)) ∧
  (∀ i, cacheLookup c1 (listKey i) = cacheLookup c0 (listKey i)) ∧
  (∀ t o, cacheLookup c1 (commentsKey t o) = cacheLookup c0 (commentsKey t o)) ∧
  (∀ o, cacheLookup c1 (timeEntriesKey o) = cacheLookup c0 (timeEntriesKey o))

/-- The non-`comments`, non-`time_entries` family keys, for the add-comment
and time-entry frames. -/
def CoreFamiliesUnchanged (c1 c0 : Cache) : Prop :=
  cacheLookup c1 "spaces" = cacheLookup c0 "spaces" ∧
  (∀ i, cacheLookup c1 (spaceKey i) = cacheLookup c0 (spaceKey i)) ∧
  (∀ i, cacheLookup c1 (foldersKey i) = cacheLookup c0 (foldersKey i)) ∧
  (∀ i, cacheLookup c1 (listsKey i) = cacheLookup c0 (listsKey i)) ∧
  (∀ i, cacheLookup c1 (folderlessListsKey i) = cacheLookup c0 (folderlessListsKey i)) ∧
  (∀ i, cacheLookup c1 (listKey i) = cacheLookup c0 (listKey i))

theorem createTask_run_err (listId : String) (d : CreateTaskData) (net : Net) (st : ClientState)
    (hbad : ¬ respOk (net (createTaskRequest listId d))) :
    createTask listId d net st =
      (.error ⟨(net (createTaskRequest listId d)).status, (net (createTaskRequest listId d)).body⟩,
        st, [createTaskRequest listId d]) := by
  simp only [createTask]
  rw [show doRequest net
      { method := "POST", path := "/list/" ++ listId ++ "/task",
        body := some (.createTaskB d) } =
    .error ⟨(net (createTaskRequest listId d)).status, (net (createTaskRequest listId d)).body⟩
    from by
      rw [doRequest]
      exact if_neg hbad]
  rfl

theorem updateTask_run_err (taskId : String) (d : UpdateTaskData) (net : Net) (st : ClientState)
    (hbad : ¬ respOk (net (updateTaskRequest taskId d))) :
    updateTask taskId d net st =
      (.error ⟨(net (updateTaskRequest taskId d)).status, (net (updateTaskRequest taskId d)).body⟩,
        st, [updateTaskRequest taskId d]) := by
  simp only [updateTask]
  rw [show doRequest net
      { method := "PUT", path := "/task/" ++ taskId, body := some (.updateTaskB d) } =
    .error ⟨(net (updateTaskRequest taskId d)).status, (net (updateTaskRequest taskId d)).body⟩
    from by
      rw [doRequest]
      exact if_neg hbad]
  rfl

theorem addComment_run_err (taskId commentText : String) (notifyAll : Bool) (net : Net)
    (st : ClientState) (hbad : ¬ respOk (net (addCommentRequest taskId commentText notifyAll))) :
    addComment taskId commentText notifyAll net st =
      (.error ⟨(net (addCommentRequest taskId commentText notifyAll)).status,
        (net (addCommentRequest taskId commentText notifyAll)).body⟩,
        st, [addCommentRequest taskId commentText notifyAll]) := by
  simp only [addComment]
  rw [show doRequest net
      { method := "POST", path := "/task/" ++ taskId ++ "/comment",
        body := some (.commentB commentText notifyAll) } =
    .error ⟨(net (addCommentRequest taskId commentText notifyAll)).status,
      (net (addCommentRequest taskId commentText notifyAll)).body⟩
    from by
      rw [doRequest]
      exact if_neg hbad]
  rfl

theorem createTimeEntry_run (cfg : ClickUpConfig) (taskId : String) (d : CreateTimeEntryData)
    (net : Net) (st : ClientState)
    (hok : respOk (net (createTimeEntryRequest cfg taskId d))) :
    createTimeEntry cfg taskId d net st =
      (.ok (net (createTimeEntryRequest cfg taskId d)).body,
        ⟨st.cacheDisabled, cacheInvalidatePattern (.startsWith "time_entries") st.cache⟩,
        [createTimeEntryRequest cfg taskId d]) := by
  simp only [createTimeEntry]
  rw [show doRequest net
      { method := "POST", path := "/team/" ++ cfg.teamId ++ "/time_entries",
        body := some (.timeEntryB d taskId) } =
    .ok (net (createTimeEntryRequest cfg taskId d)).body from by
      rw [doRequest]
      exact if_pos hok]
  rfl

theorem createTimeEntry_run_err (cfg : ClickUpConfig) (taskId : String) (d : CreateTimeEntryData)
    (net : Net) (st : ClientState)
    (hbad : ¬ respOk (net (createTimeEntryRequest cfg taskId d))) :
    createTimeEntry cfg taskId d net st =
      (.error ⟨(net (createTimeEntryRequest cfg taskId d)).status,
        (net (createTimeEntryRequest cfg taskId d)).body⟩,
        st, [createTimeEntryRequest cfg taskId d]) := by
  simp only [createTimeEntry]
  rw [show doRequest net
      { method := "POST", path := "/team/" ++ cfg.teamId ++ "/time_entries",
        body := some (.timeEntryB d taskId) } =
    .error ⟨(net (createTimeEntryRequest cfg taskId d)).status,
      (net (createTimeEntryRequest cfg taskId d)).body⟩
    from by
      rw [doRequest]
      exact if_neg hbad]
  rfl

/-- Cache state after `addComment` on task `"abc"` starting from a cache that
holds a comments entry for the different task `"abcd"`. -/
def c10cache : Cache := ⟨[(commentsKey "abcd" {}, ⟨"cached-comments", 1000⟩)], true⟩

def c10net : Net := fun _ => ⟨200, "{}"⟩

/-- Counterexample to C10 as stated: `addComment("abc", ...)` also removes the
cached comments entry of the distinct task `"abcd"`, because the invalidation
regex `^comments.*task=abc` matches the key `comments:task=abcd` as well.  So
"all entries other than that task's comments entries are unchanged" fails. -/
theorem addComment_frame_counterexample :
    commentsKey "abcd" {} ≠ commentsKey "abc" {} ∧
    cacheLookup c10cache (commentsKey "abcd" {}) = some ⟨"cached-comments", 1000⟩ ∧
    cacheLookup (addComment "abc" "hello" false c10net ⟨false, c10cache⟩).2.1.cache
      (commentsKey "abcd" {}) = none := by
  refine ⟨by decide, by decide, by decide⟩

/-- C10 (amended).  Write-operation frame: `createTask` and `updateTask` leave
all `spaces`, `space`, `folders`, `lists`, `folderless_lists`, `list`,
`comments` and `time_entries` entries untouched; `createTimeEntry` leaves every
entry whose key does not begin with `time_entries` untouched (all the other
families in particular); `addComment(taskId, ...)` leaves every entry whose
key does not match `^comments.*task=<taskId>` untouched — which covers all
non-`comments` families, but comments entries of a different task whose
serialised key contains `task=<taskId>` (e.g. a task id extending `taskId`)
are also invalidated. -/
theorem write_operation_frame :
    (∀ (listId : String) (d : CreateTaskData) (net : Net) (st : ClientState),
      FamiliesUnchanged (createTask listId d net st).2.1.cache st.cache) ∧
    (∀ (taskId : String) (d : UpdateTaskData) (net : Net) (st : ClientState),
      FamiliesUnchanged (updateTask taskId d net st).2.1.cache st.cache) ∧
    (∀ (taskId commentText : String) (notifyAll : Bool) (net : Net) (st : ClientState),
      (∀ k : String,
        patMatches (.startsWithContains "comments" ("task=" ++ taskId)) k = false →
        cacheLookup (addComment taskId commentText notifyAll net st).2.1.cache k =
          cacheLookup st.cache k) ∧
      CoreFamiliesUnchanged (addComment taskId commentText notifyAll net st).2.1.cache st.cache ∧
      (∀ o, cacheLookup (addComment taskId commentText notifyAll net st).2.1.cache
        (timeEntriesKey o) = cacheLookup st.cache (timeEntriesKey o))) ∧
    (∀ (cfg : ClickUpConfig) (taskId : String) (d : CreateTimeEntryData) (net : Net)
        (st : ClientState),
      (∀ k : String, prefixB "time_entries" k = false →
        cacheLookup (createTimeEntry cfg taskId d net st).2.1.cache k =
          cacheLookup st.cache k) ∧
      CoreFamiliesUnchanged (createTimeEntry cfg taskId d net st).2.1.cache st.cache ∧
      (∀ t o, cacheLookup (createTimeEntry cfg taskId d net st).2.1.cache
        (commentsKey t o) = cacheLookup st.cache (commentsKey t o))) := by
  have hts : ∀ (c : Cache) (op : String) (ps : List (String × Option PVal)),
      "tasks".data.isPrefixOf op.data = false → "search".data.isPrefixOf op.data = false →
      cacheLookup (cacheInvalidatePattern (.startsWith "search")
        (cacheInvalidatePattern (.startsWith "tasks") c)) (createCacheKey op ps) =
        cacheLookup c (createCacheKey op ps) := by
    intro c op ps h1 h2
    rw [cacheLookup_invalidatePattern_of_not_match _ _ _
        (show patMatches (CachePat.startsWith "search") (createCacheKey op ps) = false from
          prefixB_key_false "search" op ps (by decide) h2),
      cacheLookup_invalidatePattern_of_not_match _ _ _
        (show patMatches (CachePat.startsWith "tasks") (createCacheKey op ps) = false from
          prefixB_key_false "tasks" op ps (by decide) h1)]
  have htsLit : ∀ (c : Cache),
      cacheLookup (cacheInvalidatePattern (.startsWith "search")
        (cacheInvalidatePattern (.startsWith "tasks") c)) "spaces" =
        cacheLookup c "spaces" := by
    intro c
    rw [cacheLookup_invalidatePattern_of_not_match _ _ _ (by decide),
      cacheLookup_invalidatePattern_of_not_match _ _ _ (by decide)]
  have hcreate : ∀ (c : Cache), FamiliesUnchanged
      (cacheInvalidatePattern (.startsWith "search")
        (cacheInvalidatePattern (.startsWith "tasks") c)) c := by
    intro c
    exact ⟨htsLit c,
      fun i => hts c "space" _ (by decide) (by decide),
      fun i => hts c "folders" _ (by decide) (by decide),
      fun i => hts c "lists" _ (by decide) (by decide),
      fun i => hts c "folderless_lists" _ (by decide) (by decide),
      fun i => hts c "list" _ (by decide) (by decide),
      fun t o => hts c "comments" _ (by decide) (by decide),
      fun o => hts c "time_entries" _ (by decide) (by decide)⟩
  refine ⟨?_, ?_, ?_, ?_⟩
  · intro listId d net st
    by_cases hok : respOk (net (createTaskRequest listId d))
    · rw [createTask_run listId d net st hok]
      exact hcreate st.cache
    · rw [createTask_run_err listId d net st hok]
      exact ⟨rfl, fun i => rfl, fun i => rfl, fun i => rfl, fun i => rfl, fun i => rfl,
        fun t o => rfl, fun o => rfl⟩
  · intro taskId d net st
    by_cases hok : respOk (net (updateTaskRequest taskId d))
    · rw [updateTask_run taskId d net st hok]
      have hinv : ∀ (op : String) (ps : List (String × Option PVal)),
          "task".data.isPrefixOf op.data = false →
          cacheLookup (cacheInvalidate (taskKey taskId true)
            (cacheInvalidate (taskKey taskId false) st.cache)) (createCacheKey op ps) =
            cacheLookup st.cache (createCacheKey op ps) := by
        intro op ps h3
        have hne : ∀ b : Bool, createCacheKey op ps ≠ taskKey taskId b := fun b =>
          createCacheKey_ne op "task" ps
            [("id", some (.s taskId)), ("markdown", some (.b b))] (by decide) h3
        rw [cacheLookup_invalidate_other _ _ _ (hne true),
          cacheLookup_invalidate_other _ _ _ (hne false)]
      have hinvLit : cacheLookup (cacheInvalidate (taskKey taskId true)
          (cacheInvalidate (taskKey taskId false) st.cache)) "spaces" =
          cacheLookup st.cache "spaces" := by
        have hne : ∀ b : Bool, ("spaces" : String) ≠ taskKey taskId b := fun b =>
          literal_ne_key "spaces" "task"
            [("id", some (.s taskId)), ("markdown", some (.b b))] (by decide)
        rw [cacheLookup_invalidate_other _ _ _ (hne true),
          cacheLookup_invalidate_other _ _ _ (hne false)]
      obtain ⟨f0, f1, f2, f3, f4, f5, f6, f7⟩ := hcreate
        (cacheInvalidate (taskKey taskId true) (cacheInvalidate (taskKey taskId false) st.cache))
      exact ⟨f0.trans hinvLit,
        fun i => (f1 i).trans (hinv "space" _ (by decide)),
        fun i => (f2 i).trans (hinv "folders" _ (by decide)),
        fun i => (f3 i).trans (hinv "lists" _ (by decide)),
        fun i => (f4 i).trans (hinv "folderless_lists" _ (by decide)),
        fun i => (f5 i).trans (hinv "list" _ (by decide)),
        fun t o => (f6 t o).trans (hinv "comments" _ (by decide)),
        fun o => (f7 o).trans (hinv "time_entries" _ (by decide))⟩
    · rw [updateTask_run_err taskId d net st hok]
      exact ⟨rfl, fun i => rfl, fun i => rfl, fun i => rfl, fun i => rfl, fun i => rfl,
        fun t o => rfl, fun o => rfl⟩
  · intro taskId commentText notifyAll net st
    by_cases hok : respOk (net (addCommentRequest taskId commentText notifyAll))
    · rw [addComment_run taskId commentText notifyAll net st hok]
      have hgen : ∀ k : String,
          patMatches (.startsWithContains "comments" ("task=" ++ taskId)) k = false →
          cacheLookup (cacheInvalidatePattern
            (.startsWithContains "comments" ("task=" ++ taskId)) st.cache) k =
            cacheLookup st.cache k :=
        fun k hk => cacheLookup_invalidatePattern_of_not_match _ _ _ hk
      have hop : ∀ (op : String) (ps : List (String × Option PVal)),
          "comments".data.isPrefixOf op.data = false →
          patMatches (.startsWithContains "comments" ("task=" ++ taskId))
            (createCacheKey op ps) = false := by
        intro op ps h3
        show (prefixB "comments" (createCacheKey op ps) &&
          isInfixB ("task=" ++ taskId).data
            ((createCacheKey op ps).data.drop ("comments" : String).data.length)) = false
        rw [prefixB_key_false "comments" op ps (by decide) h3]
        exact Bool.false_and _
      refine ⟨hgen, ⟨?_, ?_, ?_, ?_, ?_, ?_⟩, ?_⟩
      · refine hgen "spaces" ?_
        show (prefixB "comments" "spaces" &&
          isInfixB ("task=" ++ taskId).data
            (("spaces" : String).data.drop ("comments" : String).data.length)) = false
        rw [show prefixB "comments" "spaces" = false from by decide]
        exact Bool.false_and _
      · exact fun i => hgen _ (hop "space" _ (by decide))
      · exact fun i => hgen _ (hop "folders" _ (by decide))
      · exact fun i => hgen _ (hop "lists" _ (by decide))
      · exact fun i => hgen _ (hop "folderless_lists" _ (by decide))
      · exact fun i => hgen _ (hop "list" _ (by decide))
      · exact fun o => hgen _ (hop "time_entries" _ (by decide))
    · rw [addComment_run_err taskId commentText notifyAll net st hok]
      exact ⟨fun k _ => rfl, ⟨rfl, fun i => rfl, fun i => rfl, fun i => rfl, fun i => rfl,
        fun i => rfl⟩, fun o => rfl⟩
  · intro cfg taskId d net st
    by_cases hok : respOk (net (createTimeEntryRequest cfg taskId d))
    · rw [createTimeEntry_run cfg taskId d net st hok]
      have hgen : ∀ k : String, prefixB "time_entries" k = false →
          cacheLookup (cacheInvalidatePattern (.startsWith "time_entries") st.cache) k =
            cacheLookup st.cache k :=
        fun k hk => cacheLookup_invalidatePattern_of_not_match _ _ _ hk
      refine ⟨hgen, ⟨?_, ?_, ?_, ?_, ?_, ?_⟩, ?_⟩
      · exact hgen "spaces" (by decide)
      · exact fun i => hgen _ (prefixB_key_false "time_entries" "space" _ (by decide) (by decide))
      · exact fun i => hgen _ (prefixB_key_false "time_entries" "folders" _ (by decide) (by decide))
      · exact fun i => hgen _ (prefixB_key_false "time_entries" "lists" _ (by decide) (by decide))
      · exact fun i => hgen _
          (prefixB_key_false "time_entries" "folderless_lists" _ (by decide) (by decide))
      · exact fun i => hgen _ (prefixB_key_false "time_entries" "list" _ (by decide) (by decide))
      · exact fun t o => hgen _
          (prefixB_key_false "time_entries" "comments" _ (by decide) (by decide))
    · rw [createTimeEntry_run_err cfg taskId d net st hok]
      exact ⟨fun k _ => rfl, ⟨rfl, fun i => rfl, fun i => rfl, fun i => rfl, fun i => rfl,
        fun i => rfl⟩, fun t o => rfl⟩

/-- Witness for C10 at concrete writes: after a successful `createTask`, a
cached `space` entry is untouched. -/
theorem write_operation_frame_witness :
    let st : ClientState := ⟨false, ⟨[(spaceKey "S1", ⟨"space-data", 50⟩)], true⟩⟩
    cacheLookup (createTask "L" { name := "x" } c10net st).2.1.cache (spaceKey "S1") =
      cacheLookup st.cache (spaceKey "S1") := by
  intro st
  exact (write_operation_frame.1 "L" { name := "x" } c10net st).2.1 "S1"

/-! ## Query-string characterisation (C5 groundwork) -/

theorem name_of_mem_stepSeg (st : QStep) (p : String × String) (hp : p ∈ stepSeg st) :
    p.1 = stepName st := by
  cases st with
  | setOpt nm v? =>
    cases v? with
    | none => simp [stepSeg] at hp
    | some v =>
      simp only [stepSeg, List.mem_singleton] at hp
      rw [hp]
      rfl
  | appendArr nm vs? =>
    cases vs? with
    | none => simp [stepSeg] at hp
    | some vs =>
      simp only [stepSeg] at hp
      obtain ⟨s, _, rfl⟩ := List.mem_map.mp hp
      rfl

theorem getTasksUSP_pairs (o : GetTasksOptions) :
    (getTasksUSP o).pairs = planSegs (getTasksPlan o) := by
  rw [getTasksUSP, runPlan_pairs (getTasksPlan o) USP.empty
    (by intro p hp; simp [USP.empty] at hp)
    (by
      rw [show planNames (getTasksPlan o) =
        ["archived", "include_closed", "page", "order_by", "reverse", "subtasks",
         "statuses[]", "assignees[]", "due_date_gt", "due_date_lt", "date_created_gt",
         "date_created_lt", "date_updated_gt", "date_updated_lt"] from rfl]
      decide)]
  rfl

theorem searchTasksUSP_pairs (query : String) (o : SearchTasksOptions) :
    (searchTasksUSP query o).pairs = planSegs (searchTasksPlan query o) := by
  rw [searchTasksUSP, runPlan_pairs (searchTasksPlan query o) USP.empty
    (by intro p hp; simp [USP.empty] at hp)
    (by
      rw [show planNames (searchTasksPlan query o) =
        ["query", "include_closed", "page", "list_ids[]", "space_ids[]", "folder_ids[]",
         "statuses[]"] from rfl]
      decide)]
  rfl

theorem filter_map_const_name (n nm : String) (vs : List String) :
    (vs.map (fun s => (n, s))).filter (fun p => p.1 == nm) =
      if n == nm then vs.map (fun s => (n, s)) else [] := by
  induction vs with
  | nil => simp
  | cons v t ih =>
    by_cases h : n = nm
    · subst h
      simp [List.filter_cons, ih]
    · simp [List.filter_cons, h, ih]

theorem filter_stepSeg (st : QStep) (nm : String) :
    (stepSeg st).filter (fun p => p.1 == nm) =
      if stepName st == nm then stepSeg st else [] := by
  cases st with
  | setOpt n v? =>
    cases v? with
    | none => simp [stepSeg]
    | some v =>
      simp only [stepSeg, stepName, List.filter_cons]
      by_cases h : (n == nm) = true
      · simp [h]
      · have h' : (n == nm) = false := by simpa using h
        simp [h']
  | appendArr n vs? =>
    cases vs? with
    | none => simp [stepSeg]
    | some vs =>
      simp only [stepSeg, stepName]
      exact filter_map_const_name n nm vs

theorem filter_planSegs (nm : String) : ∀ plan : List QStep,
    (planSegs plan).filter (fun p => p.1 == nm) =
      (plan.filter (fun st => stepName st == nm)).flatMap stepSeg := by
  intro plan
  induction plan with
  | nil => rfl
  | cons st rest ih =>
    rw [planSegs, List.flatMap_cons, List.filter_append, filter_stepSeg,
      List.filter_cons]
    by_cases h : (stepName st == nm) = true
    · rw [if_pos h, if_pos (by simp [h]), List.flatMap_cons]
      rw [← ih]
      rfl
    · have h' : (stepName st == nm) = false := by simpa using h
      rw [if_neg (by simp [h']), if_neg (by simp [h']), List.nil_append]
      rw [← ih]
      rfl

/-- C5.  Query-string construction for `getTasks`: the concrete call with
`statuses = ["open","review"]` and `due_date_lt = 1700000000000` produces
exactly the query string `statuses[]=open&statuses[]=review&due_date_lt=
1700000000000` (no other filter parameters); in general a filter that is
omitted from the options never contributes a query parameter, and array
filters appear as the repeated `name[]=value` pairs in order. -/
theorem getTasks_query_construction :
    getTasksEndpoint "listX"
      { statuses := some ["open", "review"], due_date_lt := some 1700000000000 } =
      "/list/listX/task?statuses[]=open&statuses[]=review&due_date_lt=1700000000000" ∧
    (∀ o : GetTasksOptions,
      (o.archived = none → ∀ v, ("archived", v) ∉ (getTasksUSP o).pairs) ∧
      (o.include_closed = none → ∀ v, ("include_closed", v) ∉ (getTasksUSP o).pairs) ∧
      (o.page = none → ∀ v, ("page", v) ∉ (getTasksUSP o).pairs) ∧
      (o.order_by = none → ∀ v, ("order_by", v) ∉ (getTasksUSP o).pairs) ∧
      (o.reverse = none → ∀ v, ("reverse", v) ∉ (getTasksUSP o).pairs) ∧
      (o.subtasks = none → ∀ v, ("subtasks", v) ∉ (getTasksUSP o).pairs) ∧
      (o.statuses = none → ∀ v, ("statuses[]", v) ∉ (getTasksUSP o).pairs) ∧
      (o.assignees = none → ∀ v, ("assignees[]", v) ∉ (getTasksUSP o).pairs) ∧
      (o.due_date_gt = none → ∀ v, ("due_date_gt", v) ∉ (getTasksUSP o).pairs) ∧
      (o.due_date_lt = none → ∀ v, ("due_date_lt", v) ∉ (getTasksUSP o).pairs) ∧
      (o.date_created_gt = none → ∀ v, ("date_created_gt", v) ∉ (getTasksUSP o).pairs) ∧
      (o.date_created_lt = none → ∀ v, ("date_created_lt", v) ∉ (getTasksUSP o).pairs) ∧
      (o.date_updated_gt = none → ∀ v, ("date_updated_gt", v) ∉ (getTasksUSP o).pairs) ∧
      (o.date_updated_lt = none → ∀ v, ("date_updated_lt", v) ∉ (getTasksUSP o).pairs)) ∧
    (∀ (o : GetTasksOptions) (l : List String),
      (o.statuses = some l →
        ((getTasksUSP o).pairs).filter (fun p => p.1 == "statuses[]") =
          l.map (fun s => ("statuses[]", s))) ∧
      (o.assignees = some l →
        ((getTasksUSP o).pairs).filter (fun p => p.1 == "assignees[]") =
          l.map (fun s => ("assignees[]", s)))) := by
  refine ⟨by decide, ?_, ?_⟩
  · intro o
    refine ⟨?_, ?_, ?_, ?_, ?_, ?_, ?_, ?_, ?_, ?_, ?_, ?_, ?_, ?_⟩ <;>
      (intro h v hmem
       rw [getTasksUSP_pairs] at hmem
       obtain ⟨st, hst, hp⟩ := List.mem_flatMap.mp hmem
       fin_cases hst <;>
         first
           | (rw [h] at hp
              simp [stepSeg, truthyBoolV, truthyNatV, truthyStrV] at hp)
           | (exact absurd (name_of_mem_stepSeg _ _ hp) (by simp [stepName])))
  · intro o l
    constructor
    · intro h
      rw [getTasksUSP_pairs, filter_planSegs]
      rw [show (getTasksPlan o).filter (fun st => stepName st == "statuses[]") =
        [QStep.appendArr "statuses[]" o.statuses] from rfl]
      rw [h]
      simp [stepSeg]
    · intro h
      rw [getTasksUSP_pairs, filter_planSegs]
      rw [show (getTasksPlan o).filter (fun st => stepName st == "assignees[]") =
        [QStep.appendArr "assignees[]" o.assignees] from rfl]
      rw [h]
      simp [stepSeg]

/-- Witness for C5 at concrete options. -/
theorem getTasks_query_construction_witness :
    (({ statuses := some ["open"] } : GetTasksOptions).archived = none) ∧
    (∀ v, ("archived", v) ∉ (getTasksUSP { statuses := some ["open"] }).pairs) ∧
    ((getTasksUSP { statuses := some ["open"] }).pairs).filter
      (fun p => p.1 == "statuses[]") = [("statuses[]", "open")] := by
  refine ⟨rfl, (getTasks_query_construction.2.1 { statuses := some ["open"] }).1 rfl, ?_⟩
  exact (getTasks_query_construction.2.2 { statuses := some ["open"] } ["open"]).1 rfl

/-! ## Cache-key injectivity for `getTasks` and `searchTasks` (C1 groundwork) -/

theorem natSer_no_pipe (n : Nat) : '|' ∉ (natSer n).data :=
  fun h => natSerAux_no_pipe _ _ _ h rfl

theorem serBool_not_pipe_mem (b : Bool) : '|' ∉ (serBool b).data :=
  fun h => serBool_no_pipe b _ h rfl

theorem mem_joinSep (sep c : Char) : ∀ L : List (List Char),
    c ∈ joinSep sep L → c = sep ∨ ∃ x ∈ L, c ∈ x := by
  intro L
  induction L with
  | nil => intro h; simp [joinSep] at h
  | cons a t ih =>
    intro h
    rw [joinSep_cons, List.mem_append] at h
    rcases h with h | h
    · exact Or.inr ⟨a, List.mem_cons_self a t, h⟩
    · cases t with
      | nil => simp [sepTail] at h
      | cons b bt =>
        simp only [sepTail, List.mem_cons] at h
        rcases h with rfl | h
        · exact Or.inl rfl
        · rcases ih h with h2 | ⟨x, hx, hcx⟩
          · exact Or.inl h2
          · exact Or.inr ⟨x, List.mem_cons_of_mem a hx, hcx⟩

theorem joinComma_no_pipe (L : List String) (h : ∀ s ∈ L, '|' ∉ s.data) :
    '|' ∉ (joinComma L).data := by
  intro hc
  rcases mem_joinSep ',' '|' (L.map String.data) hc with h1 | ⟨x, hx, hcx⟩
  · exact absurd h1 (by decide)
  · obtain ⟨s, hs, rfl⟩ := List.mem_map.mp hx
    exact h s hs hcx

theorem mem_definedSer (ps : List (String × Option PVal)) (p : String × String) :
    p ∈ definedSer ps ↔ ∃ q ∈ ps, ∃ v, q.2 = some v ∧ p = (q.1, serPVal v) := by
  rw [definedSer, List.mem_filterMap]
  constructor
  · rintro ⟨q, hq, hfq⟩
    rw [Option.map_eq_some'] at hfq
    obtain ⟨v, hv, hpv⟩ := hfq
    exact ⟨q, hq, v, hv, hpv.symm⟩
  · rintro ⟨q, hq, v, hv, hpv⟩
    exact ⟨q, hq, by rw [hv, Option.map_some', hpv]⟩

/-- The string-parameter safety needed for key distinctness: no `|` (the
modelled key-entry separator). -/
def StrSafe (s : String) : Prop := '|' ∉ s.data

/-- Array-filter element safety: elements are non-empty and avoid the `,`
array join separator and the `|` key separator. -/
def ArrSafe (L : List String) : Prop := ∀ s ∈ L, s ≠ "" ∧ ',' ∉ s.data ∧ '|' ∉ s.data

def TasksParamsSafe (listId : String) (o : GetTasksOptions) : Prop :=
  StrSafe listId ∧
  (∀ s, o.order_by = some s → StrSafe s) ∧
  (∀ L, o.statuses = some L → ArrSafe L) ∧
  (∀ L, o.assignees = some L → ArrSafe L)

def SearchParamsSafe (query : String) (o : SearchTasksOptions) : Prop :=
  StrSafe query ∧
  (∀ L, o.list_ids = some L → ArrSafe L) ∧
  (∀ L, o.space_ids = some L → ArrSafe L) ∧
  (∀ L, o.folder_ids = some L → ArrSafe L) ∧
  (∀ L, o.statuses = some L → ArrSafe L)

theorem arrSafe_join_no_pipe (L : List String) (h : ArrSafe L) :
    '|' ∉ (joinComma L).data :=
  joinComma_no_pipe L (fun s hs => (h s hs).2.2)

theorem tasksParams_cond (listId : String) (o : GetTasksOptions)
    (hs : TasksParamsSafe listId o) :
    ∀ p ∈ definedSer (tasksCacheParams listId o),
      '=' ∉ p.1.data ∧ '|' ∉ p.1.data ∧ '|' ∉ p.2.data := by
  intro p hp
  rw [mem_definedSer] at hp
  obtain ⟨q, hq, v, hv, rfl⟩ := hp
  fin_cases hq <;> simp only at hv ⊢
  · refine ⟨by decide, by decide, ?_⟩
    injection hv with hv2
    rw [← hv2]
    exact hs.1
  · obtain ⟨b, _, rfl⟩ := Option.map_eq_some'.mp hv
    exact ⟨by decide, by decide, serBool_not_pipe_mem b⟩
  · obtain ⟨b, _, rfl⟩ := Option.map_eq_some'.mp hv
    exact ⟨by decide, by decide, serBool_not_pipe_mem b⟩
  · obtain ⟨n, _, rfl⟩ := Option.map_eq_some'.mp hv
    exact ⟨by decide, by decide, natSer_no_pipe n⟩
  · obtain ⟨s, hsome, rfl⟩ := Option.map_eq_some'.mp hv
    exact ⟨by decide, by decide, hs.2.1 s hsome⟩
  · obtain ⟨b, _, rfl⟩ := Option.map_eq_some'.mp hv
    exact ⟨by decide, by decide, serBool_not_pipe_mem b⟩
  · obtain ⟨b, _, rfl⟩ := Option.map_eq_some'.mp hv
    exact ⟨by decide, by decide, serBool_not_pipe_mem b⟩
  · obtain ⟨L, hsome, rfl⟩ := Option.map_eq_some'.mp hv
    exact ⟨by decide, by decide, arrSafe_join_no_pipe L (hs.2.2.1 L hsome)⟩
  · obtain ⟨L, hsome, rfl⟩ := Option.map_eq_some'.mp hv
    exact ⟨by decide, by decide, arrSafe_join_no_pipe L (hs.2.2.2 L hsome)⟩
  · obtain ⟨n, _, rfl⟩ := Option.map_eq_some'.mp hv
    exact ⟨by decide, by decide, natSer_no_pipe n⟩
  · obtain ⟨n, _, rfl⟩ := Option.map_eq_some'.mp hv
    exact ⟨by decide, by decide, natSer_no_pipe n⟩
  · obtain ⟨n, _, rfl⟩ := Option.map_eq_some'.mp hv
    exact ⟨by decide, by decide, natSer_no_pipe n⟩
  · obtain ⟨n, _, rfl⟩ := Option.map_eq_some'.mp hv
    exact ⟨by decide, by decide, natSer_no_pipe n⟩
  · obtain ⟨n, _, rfl⟩ := Option.map_eq_some'.mp hv
    exact ⟨by decide, by decide, natSer_no_pipe n⟩
  · obtain ⟨n, _, rfl⟩ := Option.map_eq_some'.mp hv
    exact ⟨by decide, by decide, natSer_no_pipe n⟩

theorem searchParams_cond (query : String) (o : SearchTasksOptions)
    (hs : SearchParamsSafe query o) :
    ∀ p ∈ definedSer (searchCacheParams query o),
      '=' ∉ p.1.data ∧ '|' ∉ p.1.data ∧ '|' ∉ p.2.data := by
  intro p hp
  rw [mem_definedSer] at hp
  obtain ⟨q, hq, v, hv, rfl⟩ := hp
  fin_cases hq <;> simp only at hv ⊢
  · refine ⟨by decide, by decide, ?_⟩
    injection hv with hv2
    rw [← hv2]
    exact hs.1
  · obtain ⟨b, _, rfl⟩ := Option.map_eq_some'.mp hv
    exact ⟨by decide, by decide, serBool_not_pipe_mem b⟩
  · obtain ⟨b, _, rfl⟩ := Option.map_eq_some'.mp hv
    exact ⟨by decide, by decide, serBool_not_pipe_mem b⟩
  · obtain ⟨L, hsome, rfl⟩ := Option.map_eq_some'.mp hv
    exact ⟨by decide, by decide, arrSafe_join_no_pipe L (hs.2.1 L hsome)⟩
  · obtain ⟨L, hsome, rfl⟩ := Option.map_eq_some'.mp hv
    exact ⟨by decide, by decide, arrSafe_join_no_pipe L (hs.2.2.1 L hsome)⟩
  · obtain ⟨L, hsome, rfl⟩ := Option.map_eq_some'.mp hv
    exact ⟨by decide, by decide, arrSafe_join_no_pipe L (hs.2.2.2.1 L hsome)⟩
  · obtain ⟨L, hsome, rfl⟩ := Option.map_eq_some'.mp hv
    exact ⟨by decide, by decide, arrSafe_join_no_pipe L (hs.2.2.2.2 L hsome)⟩
  · obtain ⟨n, _, rfl⟩ := Option.map_eq_some'.mp hv
    exact ⟨by decide, by decide, natSer_no_pipe n⟩

theorem alookup_definedSer_none (ps : List (String × Option PVal)) (k : String)
    (h : k ∉ ps.map Prod.fst) : alookup k (definedSer ps) = none := by
  apply alookup_eq_none_of_not_mem
  intro hmem
  exact h ((definedSer_keys_sublist ps).subset hmem)

theorem alookup_definedSer_split (pre post : List (String × Option PVal)) (k : String)
    (w : Option PVal) (hpre : k ∉ pre.map Prod.fst) (hpost : k ∉ post.map Prod.fst) :
    alookup k (definedSer (pre ++ (k, w) :: post)) = w.map (fun v => serPVal v) := by
  have hsplit : definedSer (pre ++ (k, w) :: post) =
      definedSer pre ++ definedSer ((k, w) :: post) :=
    List.filterMap_append pre ((k, w) :: post) _
  rw [hsplit, alookup_append_of_none _ _ _ (alookup_definedSer_none pre k hpre)]
  cases w with
  | none =>
    have h2 : definedSer ((k, (none : Option PVal)) :: post) = definedSer post := rfl
    rw [h2]
    exact alookup_definedSer_none post k hpost
  | some v =>
    have h2 : definedSer ((k, some v) :: post) = (k, serPVal v) :: definedSer post := rfl
    rw [h2]
    simp [alookup]

theorem tasksP_list (listId : String) (o : GetTasksOptions) :
    alookup "list" (definedSer (tasksCacheParams listId o)) =
      (some (.s listId) : Option PVal).map (fun v => serPVal v) :=
  alookup_definedSer_split
    []
    [("archived", o.archived.map .b), ("include_closed", o.include_closed.map .b), ("page", o.page.map .n), ("order_by", o.order_by.map .s), ("reverse", o.reverse.map .b), ("subtasks", o.subtasks.map .b), ("statuses", o.statuses.map (fun l => .s (joinComma l))), ("assignees", o.assignees.map (fun l => .s (joinComma l))), ("due_date_gt", o.due_date_gt.map .n), ("due_date_lt", o.due_date_lt.map .n), ("date_created_gt", o.date_created_gt.map .n), ("date_created_lt", o.date_created_lt.map .n), ("date_updated_gt", o.date_updated_gt.map .n), ("date_updated_lt", o.date_updated_lt.map .n)]
    "list" (some (.s listId)) (by simp) (by simp)

theorem tasksP_archived (listId : String) (o : GetTasksOptions) :
    alookup "archived" (definedSer (tasksCacheParams listId o)) =
      (o.archived.map .b : Option PVal).map (fun v => serPVal v) :=
  alookup_definedSer_split
    [("list", some (.s listId))]
    [("include_closed", o.include_closed.map .b), ("page", o.page.map .n), ("order_by", o.order_by.map .s), ("reverse", o.reverse.map .b), ("subtasks", o.subtasks.map .b), ("statuses", o.statuses.map (fun l => .s (joinComma l))), ("assignees", o.assignees.map (fun l => .s (joinComma l))), ("due_date_gt", o.due_date_gt.map .n), ("due_date_lt", o.due_date_lt.map .n), ("date_created_gt", o.date_created_gt.map .n), ("date_created_lt", o.date_created_lt.map .n), ("date_updated_gt", o.date_updated_gt.map .n), ("date_updated_lt", o.date_updated_lt.map .n)]
    "archived" (o.archived.map .b) (by simp) (by simp)

theorem tasksP_include_closed (listId : String) (o : GetTasksOptions) :
    alookup "include_closed" (definedSer (tasksCacheParams listId o)) =
      (o.include_closed.map .b : Option PVal).map (fun v => serPVal v) :=
  alookup_definedSer_split
    [("list", some (.s listId)), ("archived", o.archived.map .b)]
    [("page", o.page.map .n), ("order_by", o.order_by.map .s), ("reverse", o.reverse.map .b), ("subtasks", o.subtasks.map .b), ("statuses", o.statuses.map (fun l => .s (joinComma l))), ("assignees", o.assignees.map (fun l => .s (joinComma l))), ("due_date_gt", o.due_date_gt.map .n), ("due_date_lt", o.due_date_lt.map .n), ("date_created_gt", o.date_created_gt.map .n), ("date_created_lt", o.date_created_lt.map .n), ("date_updated_gt", o.date_updated_gt.map .n), ("date_updated_lt", o.date_updated_lt.map .n)]
    "include_closed" (o.include_closed.map .b) (by simp) (by simp)

theorem tasksP_page (listId : String) (o : GetTasksOptions) :
    alookup "page" (definedSer (tasksCacheParams listId o)) =
      (o.page.map .n : Option PVal).map (fun v => serPVal v) :=
  alookup_definedSer_split
    [("list", some (.s listId)), ("archived", o.archived.map .b), ("include_closed", o.include_closed.map .b)]
    [("order_by", o.order_by.map .s), ("reverse", o.reverse.map .b), ("subtasks", o.subtasks.map .b), ("statuses", o.statuses.map (fun l => .s (joinComma l))), ("assignees", o.assignees.map (fun l => .s (joinComma l))), ("due_date_gt", o.due_date_gt.map .n), ("due_date_lt", o.due_date_lt.map .n), ("date_created_gt", o.date_created_gt.map .n), ("date_created_lt", o.date_created_lt.map .n), ("date_updated_gt", o.date_updated_gt.map .n), ("date_updated_lt", o.date_updated_lt.map .n)]
    "page" (o.page.map .n) (by simp) (by simp)

theorem tasksP_order_by (listId : String) (o : GetTasksOptions) :
    alookup "order_by" (definedSer (tasksCacheParams listId o)) =
      (o.order_by.map .s : Option PVal).map (fun v => serPVal v) :=
  alookup_definedSer_split
    [("list", some (.s listId)), ("archived", o.archived.map .b), ("include_closed", o.include_closed.map .b), ("page", o.page.map .n)]
    [("reverse", o.reverse.map .b), ("subtasks", o.subtasks.map .b), ("statuses", o.statuses.map (fun l => .s (joinComma l))), ("assignees", o.assignees.map (fun l => .s (joinComma l))), ("due_date_gt", o.due_date_gt.map .n), ("due_date_lt", o.due_date_lt.map .n), ("date_created_gt", o.date_created_gt.map .n), ("date_created_lt", o.date_created_lt.map .n), ("date_updated_gt", o.date_updated_gt.map .n), ("date_updated_lt", o.date_updated_lt.map .n)]
    "order_by" (o.order_by.map .s) (by simp) (by simp)

theorem tasksP_reverse (listId : String) (o : GetTasksOptions) :
    alookup "reverse" (definedSer (tasksCacheParams listId o)) =
      (o.reverse.map .b : Option PVal).map (fun v => serPVal v) :=
  alookup_definedSer_split
    [("list", some (.s listId)), ("archived", o.archived.map .b), ("include_closed", o.include_closed.map .b), ("page", o.page.map .n), ("order_by", o.order_by.map .s)]
    [("subtasks", o.subtasks.map .b), ("statuses", o.statuses.map (fun l => .s (joinComma l))), ("assignees", o.assignees.map (fun l => .s (joinComma l))), ("due_date_gt", o.due_date_gt.map .n), ("due_date_lt", o.due_date_lt.map .n), ("date_created_gt", o.date_created_gt.map .n), ("date_created_lt", o.date_created_lt.map .n), ("date_updated_gt", o.date_updated_gt.map .n), ("date_updated_lt", o.date_updated_lt.map .n)]
    "reverse" (o.reverse.map .b) (by simp) (by simp)

theorem tasksP_subtasks (listId : String) (o : GetTasksOptions) :
    alookup "subtasks" (definedSer (tasksCacheParams listId o)) =
      (o.subtasks.map .b : Option PVal).map (fun v => serPVal v) :=
  alookup_definedSer_split
    [("list", some (.s listId)), ("archived", o.archived.map .b), ("include_closed", o.include_closed.map .b), ("page", o.page.map .n), ("order_by", o.order_by.map .s), ("reverse", o.reverse.map .b)]
    [("statuses", o.statuses.map (fun l => .s (joinComma l))), ("assignees", o.assignees.map (fun l => .s (joinComma l))), ("due_date_gt", o.due_date_gt.map .n), ("due_date_lt", o.due_date_lt.map .n), ("date_created_gt", o.date_created_gt.map .n), ("date_created_lt", o.date_created_lt.map .n), ("date_updated_gt", o.date_updated_gt.map .n), ("date_updated_lt", o.date_updated_lt.map .n)]
    "subtasks" (o.subtasks.map .b) (by simp) (by simp)

theorem tasksP_statuses (listId : String) (o : GetTasksOptions) :
    alookup "statuses" (definedSer (tasksCacheParams listId o)) =
      (o.statuses.map (fun l => .s (joinComma l)) : Option PVal).map (fun v => serPVal v) :=
  alookup_definedSer_split
    [("list", some (.s listId)), ("archived", o.archived.map .b), ("include_closed", o.include_closed.map .b), ("page", o.page.map .n), ("order_by", o.order_by.map .s), ("reverse", o.reverse.map .b), ("subtasks", o.subtasks.map .b)]
    [("assignees", o.assignees.map (fun l => .s (joinComma l))), ("due_date_gt", o.due_date_gt.map .n), ("due_date_lt", o.due_date_lt.map .n), ("date_created_gt", o.date_created_gt.map .n), ("date_created_lt", o.date_created_lt.map .n), ("date_updated_gt", o.date_updated_gt.map .n), ("date_updated_lt", o.date_updated_lt.map .n)]
    "statuses" (o.statuses.map (fun l => .s (joinComma l))) (by simp) (by simp)

theorem tasksP_assignees (listId : String) (o : GetTasksOptions) :
    alookup "assignees" (definedSer (tasksCacheParams listId o)) =
      (o.assignees.map (fun l => .s (joinComma l)) : Option PVal).map (fun v => serPVal v) :=
  alookup_definedSer_split
    [("list", some (.s listId)), ("archived", o.archived.map .b), ("include_closed", o.include_closed.map .b), ("page", o.page.map .n), ("order_by", o.order_by.map .s), ("reverse", o.reverse.map .b), ("subtasks", o.subtasks.map .b), ("statuses", o.statuses.map (fun l => .s (joinComma l)))]
    [("due_date_gt", o.due_date_gt.map .n), ("due_date_lt", o.due_date_lt.map .n), ("date_created_gt", o.date_created_gt.map .n), ("date_created_lt", o.date_created_lt.map .n), ("date_updated_gt", o.date_updated_gt.map .n), ("date_updated_lt", o.date_updated_lt.map .n)]
    "assignees" (o.assignees.map (fun l => .s (joinComma l))) (by simp) (by simp)

theorem tasksP_due_date_gt (listId : String) (o : GetTasksOptions) :
    alookup "due_date_gt" (definedSer (tasksCacheParams listId o)) =
      (o.due_date_gt.map .n : Option PVal).map (fun v => serPVal v) :=
  alookup_definedSer_split
    [("list", some (.s listId)), ("archived", o.archived.map .b), ("include_closed", o.include_closed.map .b), ("page", o.page.map .n), ("order_by", o.order_by.map .s), ("reverse", o.reverse.map .b), ("subtasks", o.subtasks.map .b), ("statuses", o.statuses.map (fun l => .s (joinComma l))), ("assignees", o.assignees.map (fun l => .s (joinComma l)))]
    [("due_date_lt", o.due_date_lt.map .n), ("date_created_gt", o.date_created_gt.map .n), ("date_created_lt", o.date_created_lt.map .n), ("date_updated_gt", o.date_updated_gt.map .n), ("date_updated_lt", o.date_updated_lt.map .n)]
    "due_date_gt" (o.due_date_gt.map .n) (by simp) (by simp)

theorem tasksP_due_date_lt (listId : String) (o : GetTasksOptions) :
    alookup "due_date_lt" (definedSer (tasksCacheParams listId o)) =
      (o.due_date_lt.map .n : Option PVal).map (fun v => serPVal v) :=
  alookup_definedSer_split
    [("list", some (.s listId)), ("archived", o.archived.map .b), ("include_closed", o.include_closed.map .b), ("page", o.page.map .n), ("order_by", o.order_by.map .s), ("reverse", o.reverse.map .b), ("subtasks", o.subtasks.map .b), ("statuses", o.statuses.map (fun l => .s (joinComma l))), ("assignees", o.assignees.map (fun l => .s (joinComma l))), ("due_date_gt", o.due_date_gt.map .n)]
    [("date_created_gt", o.date_created_gt.map .n), ("date_created_lt", o.date_created_lt.map .n), ("date_updated_gt", o.date_updated_gt.map .n), ("date_updated_lt", o.date_updated_lt.map .n)]
    "due_date_lt" (o.due_date_lt.map .n) (by simp) (by simp)

theorem tasksP_date_created_gt (listId : String) (o : GetTasksOptions) :
    alookup "date_created_gt" (definedSer (tasksCacheParams listId o)) =
      (o.date_created_gt.map .n : Option PVal).map (fun v => serPVal v) :=
  alookup_definedSer_split
    [("list", some (.s listId)), ("archived", o.archived.map .b), ("include_closed", o.include_closed.map .b), ("page", o.page.map .n), ("order_by", o.order_by.map .s), ("reverse", o.reverse.map .b), ("subtasks", o.subtasks.map .b), ("statuses", o.statuses.map (fun l => .s (joinComma l))), ("assignees", o.assignees.map (fun l => .s (joinComma l))), ("due_date_gt", o.due_date_gt.map .n), ("due_date_lt", o.due_date_lt.map .n)]
    [("date_created_lt", o.date_created_lt.map .n), ("date_updated_gt", o.date_updated_gt.map .n), ("date_updated_lt", o.date_updated_lt.map .n)]
    "date_created_gt" (o.date_created_gt.map .n) (by simp) (by simp)

theorem tasksP_date_created_lt (listId : String) (o : GetTasksOptions) :
    alookup "date_created_lt" (definedSer (tasksCacheParams listId o)) =
      (o.date_created_lt.map .n : Option PVal).map (fun v => serPVal v) :=
  alookup_definedSer_split
    [("list", some (.s listId)), ("archived", o.archived.map .b), ("include_closed", o.include_closed.map .b), ("page", o.page.map .n), ("order_by", o.order_by.map .s), ("reverse", o.reverse.map .b), ("subtasks", o.subtasks.map .b), ("statuses", o.statuses.map (fun l => .s (joinComma l))), ("assignees", o.assignees.map (fun l => .s (joinComma l))), ("due_date_gt", o.due_date_gt.map .n), ("due_date_lt", o.due_date_lt.map .n), ("date_created_gt", o.date_created_gt.map .n)]
    [("date_updated_gt", o.date_updated_gt.map .n), ("date_updated_lt", o.date_updated_lt.map .n)]
    "date_created_lt" (o.date_created_lt.map .n) (by simp) (by simp)

theorem tasksP_date_updated_gt (listId : String) (o : GetTasksOptions) :
    alookup "date_updated_gt" (definedSer (tasksCacheParams listId o)) =
      (o.date_updated_gt.map .n : Option PVal).map (fun v => serPVal v) :=
  alookup_definedSer_split
    [("list", some (.s listId)), ("archived", o.archived.map .b), ("include_closed", o.include_closed.map .b), ("page", o.page.map .n), ("order_by", o.order_by.map .s), ("reverse", o.reverse.map .b), ("subtasks", o.subtasks.map .b), ("statuses", o.statuses.map (fun l => .s (joinComma l))), ("assignees", o.assignees.map (fun l => .s (joinComma l))), ("due_date_gt", o.due_date_gt.map .n), ("due_date_lt", o.due_date_lt.map .n), ("date_created_gt", o.date_created_gt.map .n), ("date_created_lt", o.date_created_lt.map .n)]
    [("date_updated_lt", o.date_updated_lt.map .n)]
    "date_updated_gt" (o.date_updated_gt.map .n) (by simp) (by simp)

theorem tasksP_date_updated_lt (listId : String) (o : GetTasksOptions) :
    alookup "date_updated_lt" (definedSer (tasksCacheParams listId o)) =
      (o.date_updated_lt.map .n : Option PVal).map (fun v => serPVal v) :=
  alookup_definedSer_split
    [("list", some (.s listId)), ("archived", o.archived.map .b), ("include_closed", o.include_closed.map .b), ("page", o.page.map .n), ("order_by", o.order_by.map .s), ("reverse", o.reverse.map .b), ("subtasks", o.subtasks.map .b), ("statuses", o.statuses.map (fun l => .s (joinComma l))), ("assignees", o.assignees.map (fun l => .s (joinComma l))), ("due_date_gt", o.due_date_gt.map .n), ("due_date_lt", o.due_date_lt.map .n), ("date_created_gt", o.date_created_gt.map .n), ("date_created_lt", o.date_created_lt.map .n), ("date_updated_gt", o.date_updated_gt.map .n)]
    []
    "date_updated_lt" (o.date_updated_lt.map .n) (by simp) (by simp)

theorem searchP_query (query : String) (o : SearchTasksOptions) :
    alookup "query" (definedSer (searchCacheParams query o)) =
      (some (.s query) : Option PVal).map (fun v => serPVal v) :=
  alookup_definedSer_split
    []
    [("include_closed", o.include_closed.map .b), ("assigned_to_me", o.assigned_to_me.map .b), ("list_ids", o.list_ids.map (fun l => .s (joinComma l))), ("space_ids", o.space_ids.map (fun l => .s (joinComma l))), ("folder_ids", o.folder_ids.map (fun l => .s (joinComma l))), ("statuses", o.statuses.map (fun l => .s (joinComma l))), ("page", o.page.map .n)]
    "query" (some (.s query)) (by simp) (by simp)

theorem searchP_include_closed (query : String) (o : SearchTasksOptions) :
    alookup "include_closed" (definedSer (searchCacheParams query o)) =
      (o.include_closed.map .b : Option PVal).map (fun v => serPVal v) :=
  alookup_definedSer_split
    [("query", some (.s query))]
    [("assigned_to_me", o.assigned_to_me.map .b), ("list_ids", o.list_ids.map (fun l => .s (joinComma l))), ("space_ids", o.space_ids.map (fun l => .s (joinComma l))), ("folder_ids", o.folder_ids.map (fun l => .s (joinComma l))), ("statuses", o.statuses.map (fun l => .s (joinComma l))), ("page", o.page.map .n)]
    "include_closed" (o.include_closed.map .b) (by simp) (by simp)

theorem searchP_assigned_to_me (query : String) (o : SearchTasksOptions) :
    alookup "assigned_to_me" (definedSer (searchCacheParams query o)) =
      (o.assigned_to_me.map .b : Option PVal).map (fun v => serPVal v) :=
  alookup_definedSer_split
    [("query", some (.s query)), ("include_closed", o.include_closed.map .b)]
    [("list_ids", o.list_ids.map (fun l => .s (joinComma l))), ("space_ids", o.space_ids.map (fun l => .s (joinComma l))), ("folder_ids", o.folder_ids.map (fun l => .s (joinComma l))), ("statuses", o.statuses.map (fun l => .s (joinComma l))), ("page", o.page.map .n)]
    "assigned_to_me" (o.assigned_to_me.map .b) (by simp) (by simp)

theorem searchP_list_ids (query : String) (o : SearchTasksOptions) :
    alookup "list_ids" (definedSer (searchCacheParams query o)) =
      (o.list_ids.map (fun l => .s (joinComma l)) : Option PVal).map (fun v => serPVal v) :=
  alookup_definedSer_split
    [("query", some (.s query)), ("include_closed", o.include_closed.map .b), ("assigned_to_me", o.assigned_to_me.map .b)]
    [("space_ids", o.space_ids.map (fun l => .s (joinComma l))), ("folder_ids", o.folder_ids.map (fun l => .s (joinComma l))), ("statuses", o.statuses.map (fun l => .s (joinComma l))), ("page", o.page.map .n)]
    "list_ids" (o.list_ids.map (fun l => .s (joinComma l))) (by simp) (by simp)

theorem searchP_space_ids (query : String) (o : SearchTasksOptions) :
    alookup "space_ids" (definedSer (searchCacheParams query o)) =
      (o.space_ids.map (fun l => .s (joinComma l)) : Option PVal).map (fun v => serPVal v) :=
  alookup_definedSer_split
    [("query", some (.s query)), ("include_closed", o.include_closed.map .b), ("assigned_to_me", o.assigned_to_me.map .b), ("list_ids", o.list_ids.map (fun l => .s (joinComma l)))]
    [("folder_ids", o.folder_ids.map (fun l => .s (joinComma l))), ("statuses", o.statuses.map (fun l => .s (joinComma l))), ("page", o.page.map .n)]
    "space_ids" (o.space_ids.map (fun l => .s (joinComma l))) (by simp) (by simp)

theorem searchP_folder_ids (query : String) (o : SearchTasksOptions) :
    alookup "folder_ids" (definedSer (searchCacheParams query o)) =
      (o.folder_ids.map (fun l => .s (joinComma l)) : Option PVal).map (fun v => serPVal v) :=
  alookup_definedSer_split
    [("query", some (.s query)), ("include_closed", o.include_closed.map .b), ("assigned_to_me", o.assigned_to_me.map .b), ("list_ids", o.list_ids.map (fun l => .s (joinComma l))), ("space_ids", o.space_ids.map (fun l => .s (joinComma l)))]
    [("statuses", o.statuses.map (fun l => .s (joinComma l))), ("page", o.page.map .n)]
    "folder_ids" (o.folder_ids.map (fun l => .s (joinComma l))) (by simp) (by simp)

theorem searchP_statuses (query : String) (o : SearchTasksOptions) :
    alookup "statuses" (definedSer (searchCacheParams query o)) =
      (o.statuses.map (fun l => .s (joinComma l)) : Option PVal).map (fun v => serPVal v) :=
  alookup_definedSer_split
    [("query", some (.s query)), ("include_closed", o.include_closed.map .b), ("assigned_to_me", o.assigned_to_me.map .b), ("list_ids", o.list_ids.map (fun l => .s (joinComma l))), ("space_ids", o.space_ids.map (fun l => .s (joinComma l))), ("folder_ids", o.folder_ids.map (fun l => .s (joinComma l)))]
    [("page", o.page.map .n)]
    "statuses" (o.statuses.map (fun l => .s (joinComma l))) (by simp) (by simp)

theorem searchP_page (query : String) (o : SearchTasksOptions) :
    alookup "page" (definedSer (searchCacheParams query o)) =
      (o.page.map .n : Option PVal).map (fun v => serPVal v) :=
  alookup_definedSer_split
    [("query", some (.s query)), ("include_closed", o.include_closed.map .b), ("assigned_to_me", o.assigned_to_me.map .b), ("list_ids", o.list_ids.map (fun l => .s (joinComma l))), ("space_ids", o.space_ids.map (fun l => .s (joinComma l))), ("folder_ids", o.folder_ids.map (fun l => .s (joinComma l))), ("statuses", o.statuses.map (fun l => .s (joinComma l)))]
    []
    "page" (o.page.map .n) (by simp) (by simp)

theorem GetTasksOptions_ext (o1 o2 : GetTasksOptions)
    (h1 : o1.archived = o2.archived) (h2 : o1.include_closed = o2.include_closed)
    (h3 : o1.page = o2.page) (h4 : o1.order_by = o2.order_by)
    (h5 : o1.reverse = o2.reverse) (h6 : o1.subtasks = o2.subtasks)
    (h7 : o1.statuses = o2.statuses) (h8 : o1.assignees = o2.assignees)
    (h9 : o1.due_date_gt = o2.due_date_gt) (h10 : o1.due_date_lt = o2.due_date_lt)
    (h11 : o1.date_created_gt = o2.date_created_gt)
    (h12 : o1.date_created_lt = o2.date_created_lt)
    (h13 : o1.date_updated_gt = o2.date_updated_gt)
    (h14 : o1.date_updated_lt = o2.date_updated_lt) : o1 = o2 := by
  have e : (⟨o1.archived, o1.include_closed, o1.page, o1.order_by, o1.reverse, o1.subtasks,
      o1.statuses, o1.assignees, o1.due_date_gt, o1.due_date_lt, o1.date_created_gt,
      o1.date_created_lt, o1.date_updated_gt, o1.date_updated_lt⟩ : GetTasksOptions) =
      ⟨o2.archived, o2.include_closed, o2.page, o2.order_by, o2.reverse, o2.subtasks,
      o2.statuses, o2.assignees, o2.due_date_gt, o2.due_date_lt, o2.date_created_gt,
      o2.date_created_lt, o2.date_updated_gt, o2.date_updated_lt⟩ := by
    rw [h1, h2, h3, h4, h5, h6, h7, h8, h9, h10, h11, h12, h13, h14]
  exact e

theorem SearchTasksOptions_ext (o1 o2 : SearchTasksOptions)
    (h1 : o1.include_closed = o2.include_closed) (h2 : o1.assigned_to_me = o2.assigned_to_me)
    (h3 : o1.list_ids = o2.list_ids) (h4 : o1.space_ids = o2.space_ids)
    (h5 : o1.folder_ids = o2.folder_ids) (h6 : o1.statuses = o2.statuses)
    (h7 : o1.page = o2.page) : o1 = o2 := by
  have e : (⟨o1.include_closed, o1.assigned_to_me, o1.list_ids, o1.space_ids, o1.folder_ids,
      o1.statuses, o1.page⟩ : SearchTasksOptions) =
      ⟨o2.include_closed, o2.assigned_to_me, o2.list_ids, o2.space_ids, o2.folder_ids,
      o2.statuses, o2.page⟩ := by
    rw [h1, h2, h3, h4, h5, h6, h7]
  exact e

theorem joinComma_inj_of_arrSafe (L1 L2 : List String) (s1 : ArrSafe L1) (s2 : ArrSafe L2)
    (h : joinComma L1 = joinComma L2) : L1 = L2 :=
  joinComma_injective L1 L2 (fun s hs => ⟨(s1 s hs).1, (s1 s hs).2.1⟩)
    (fun s hs => ⟨(s2 s hs).1, (s2 s hs).2.1⟩) h

theorem getTasksKey_inj (l1 : String) (o1 : GetTasksOptions) (l2 : String)
    (o2 : GetTasksOptions) (h1 : TasksParamsSafe l1 o1) (h2 : TasksParamsSafe l2 o2)
    (heq : getTasksKey l1 o1 = getTasksKey l2 o2) : l1 = l2 ∧ o1 = o2 := by
  have hperm := createCacheKey_inj "tasks" (tasksCacheParams l1 o1) (tasksCacheParams l2 o2)
    (tasksParams_cond l1 o1 h1) (tasksParams_cond l2 o2 h2) heq
  have hnd : ((definedSer (tasksCacheParams l1 o1)).map Prod.fst).Nodup := by
    apply definedSer_keys_nodup
    rw [show (tasksCacheParams l1 o1).map Prod.fst =
      ["list", "archived", "include_closed", "page", "order_by", "reverse", "subtasks",
       "statuses", "assignees", "due_date_gt", "due_date_lt", "date_created_gt",
       "date_created_lt", "date_updated_gt", "date_updated_lt"] from rfl]
    decide
  have hl := alookup_perm hperm hnd
  have hbinj : Function.Injective ((fun v : PVal => serPVal v) ∘ PVal.b) :=
    fun a b h => serBool_injective h
  have hninj : Function.Injective ((fun v : PVal => serPVal v) ∘ PVal.n) :=
    fun a b h => natSer_injective h
  have hsinj : Function.Injective ((fun v : PVal => serPVal v) ∘ PVal.s) := fun a b h => h
  have e_list : l1 = l2 := by
    have e := hl "list"
    rw [tasksP_list, tasksP_list] at e
    simpa [serPVal] using e
  have e1 : o1.archived = o2.archived := by
    have e := hl "archived"
    rw [tasksP_archived, tasksP_archived] at e
    rw [Option.map_map, Option.map_map] at e
    exact Option.map_injective hbinj e
  have e2 : o1.include_closed = o2.include_closed := by
    have e := hl "include_closed"
    rw [tasksP_include_closed, tasksP_include_closed] at e
    rw [Option.map_map, Option.map_map] at e
    exact Option.map_injective hbinj e
  have e3 : o1.page = o2.page := by
    have e := hl "page"
    rw [tasksP_page, tasksP_page] at e
    rw [Option.map_map, Option.map_map] at e
    exact Option.map_injective hninj e
  have e4 : o1.order_by = o2.order_by := by
    have e := hl "order_by"
    rw [tasksP_order_by, tasksP_order_by] at e
    rw [Option.map_map, Option.map_map] at e
    exact Option.map_injective hsinj e
  have e5 : o1.reverse = o2.reverse := by
    have e := hl "reverse"
    rw [tasksP_reverse, tasksP_reverse] at e
    rw [Option.map_map, Option.map_map] at e
    exact Option.map_injective hbinj e
  have e6 : o1.subtasks = o2.subtasks := by
    have e := hl "subtasks"
    rw [tasksP_subtasks, tasksP_subtasks] at e
    rw [Option.map_map, Option.map_map] at e
    exact Option.map_injective hbinj e
  have e7 : o1.statuses = o2.statuses := by
    have e := hl "statuses"
    rw [tasksP_statuses, tasksP_statuses] at e
    rcases hx : o1.statuses with _ | L1' <;> rcases hy : o2.statuses with _ | L2' <;>
      rw [hx, hy] at e <;> simp [serPVal] at e
    all_goals try rfl
    all_goals rw [joinComma_inj_of_arrSafe L1' L2' (h1.2.2.1 L1' hx) (h2.2.2.1 L2' hy) e]
  have e8 : o1.assignees = o2.assignees := by
    have e := hl "assignees"
    rw [tasksP_assignees, tasksP_assignees] at e
    rcases hx : o1.assignees with _ | L1' <;> rcases hy : o2.assignees with _ | L2' <;>
      rw [hx, hy] at e <;> simp [serPVal] at e
    all_goals try rfl
    all_goals rw [joinComma_inj_of_arrSafe L1' L2' (h1.2.2.2 L1' hx) (h2.2.2.2 L2' hy) e]
  have e9 : o1.due_date_gt = o2.due_date_gt := by
    have e := hl "due_date_gt"
    rw [tasksP_due_date_gt, tasksP_due_date_gt] at e
    rw [Option.map_map, Option.map_map] at e
    exact Option.map_injective hninj e
  have e10 : o1.due_date_lt = o2.due_date_lt := by
    have e := hl "due_date_lt"
    rw [tasksP_due_date_lt, tasksP_due_date_lt] at e
    rw [Option.map_map, Option.map_map] at e
    exact Option.map_injective hninj e
  have e11 : o1.date_created_gt = o2.date_created_gt := by
    have e := hl "date_created_gt"
    rw [tasksP_date_created_gt, tasksP_date_created_gt] at e
    rw [Option.map_map, Option.map_map] at e
    exact Option.map_injective hninj e
  have e12 : o1.date_created_lt = o2.date_created_lt := by
    have e := hl "date_created_lt"
    rw [tasksP_date_created_lt, tasksP_date_created_lt] at e
    rw [Option.map_map, Option.map_map] at e
    exact Option.map_injective hninj e
  have e13 : o1.date_updated_gt = o2.date_updated_gt := by
    have e := hl "date_updated_gt"
    rw [tasksP_date_updated_gt, tasksP_date_updated_gt] at e
    rw [Option.map_map, Option.map_map] at e
    exact Option.map_injective hninj e
  have e14 : o1.date_updated_lt = o2.date_updated_lt := by
    have e := hl "date_updated_lt"
    rw [tasksP_date_updated_lt, tasksP_date_updated_lt] at e
    rw [Option.map_map, Option.map_map] at e
    exact Option.map_injective hninj e
  exact ⟨e_list, GetTasksOptions_ext o1 o2 e1 e2 e3 e4 e5 e6 e7 e8 e9 e10 e11 e12 e13 e14⟩

theorem searchTasksKey_inj (q1 : String) (o1 : SearchTasksOptions) (q2 : String)
    (o2 : SearchTasksOptions) (h1 : SearchParamsSafe q1 o1) (h2 : SearchParamsSafe q2 o2)
    (heq : searchTasksKey q1 o1 = searchTasksKey q2 o2) : q1 = q2 ∧ o1 = o2 := by
  have hperm := createCacheKey_inj "search" (searchCacheParams q1 o1) (searchCacheParams q2 o2)
    (searchParams_cond q1 o1 h1) (searchParams_cond q2 o2 h2) heq
  have hnd : ((definedSer (searchCacheParams q1 o1)).map Prod.fst).Nodup := by
    apply definedSer_keys_nodup
    rw [show (searchCacheParams q1 o1).map Prod.fst =
      ["query", "include_closed", "assigned_to_me", "list_ids", "space_ids", "folder_ids",
       "statuses", "page"] from rfl]
    decide
  have hl := alookup_perm hperm hnd
  have hbinj : Function.Injective ((fun v : PVal => serPVal v) ∘ PVal.b) :=
    fun a b h => serBool_injective h
  have hninj : Function.Injective ((fun v : PVal => serPVal v) ∘ PVal.n) :=
    fun a b h => natSer_injective h
  have e_query : q1 = q2 := by
    have e := hl "query"
    rw [searchP_query, searchP_query] at e
    simpa [serPVal] using e
  have e1 : o1.include_closed = o2.include_closed := by
    have e := hl "include_closed"
    rw [searchP_include_closed, searchP_include_closed] at e
    rw [Option.map_map, Option.map_map] at e
    exact Option.map_injective hbinj e
  have e2 : o1.assigned_to_me = o2.assigned_to_me := by
    have e := hl "assigned_to_me"
    rw [searchP_assigned_to_me, searchP_assigned_to_me] at e
    rw [Option.map_map, Option.map_map] at e
    exact Option.map_injective hbinj e
  have e3 : o1.list_ids = o2.list_ids := by
    have e := hl "list_ids"
    rw [searchP_list_ids, searchP_list_ids] at e
    rcases hx : o1.list_ids with _ | L1' <;> rcases hy : o2.list_ids with _ | L2' <;>
      rw [hx, hy] at e <;> simp [serPVal] at e
    all_goals try rfl
    all_goals rw [joinComma_inj_of_arrSafe L1' L2' (h1.2.1 L1' hx) (h2.2.1 L2' hy) e]
  have e4 : o1.space_ids = o2.space_ids := by
    have e := hl "space_ids"
    rw [searchP_space_ids, searchP_space_ids] at e
    rcases hx : o1.space_ids with _ | L1' <;> rcases hy : o2.space_ids with _ | L2' <;>
      rw [hx, hy] at e <;> simp [serPVal] at e
    all_goals try rfl
    all_goals rw [joinComma_inj_of_arrSafe L1' L2' (h1.2.2.1 L1' hx) (h2.2.2.1 L2' hy) e]
  have e5 : o1.folder_ids = o2.folder_ids := by
    have e := hl "folder_ids"
    rw [searchP_folder_ids, searchP_folder_ids] at e
    rcases hx : o1.folder_ids with _ | L1' <;> rcases hy : o2.folder_ids with _ | L2' <;>
      rw [hx, hy] at e <;> simp [serPVal] at e
    all_goals try rfl
    all_goals rw [joinComma_inj_of_arrSafe L1' L2' (h1.2.2.2.1 L1' hx) (h2.2.2.2.1 L2' hy) e]
  have e6 : o1.statuses = o2.statuses := by
    have e := hl "statuses"
    rw [searchP_statuses, searchP_statuses] at e
    rcases hx : o1.statuses with _ | L1' <;> rcases hy : o2.statuses with _ | L2' <;>
      rw [hx, hy] at e <;> simp [serPVal] at e
    all_goals try rfl
    all_goals rw [joinComma_inj_of_arrSafe L1' L2' (h1.2.2.2.2 L1' hx) (h2.2.2.2.2 L2' hy) e]
  have e7 : o1.page = o2.page := by
    have e := hl "page"
    rw [searchP_page, searchP_page] at e
    rw [Option.map_map, Option.map_map] at e
    exact Option.map_injective hninj e
  exact ⟨e_query, SearchTasksOptions_ext o1 o2 e1 e2 e3 e4 e5 e6 e7⟩

/-- The two filter sets of the C1 counterexample: `statuses = ["a,b"]` versus
`statuses = ["a", "b"]`. -/
def c1opts1 : GetTasksOptions := { statuses := some ["a,b"] }

def c1opts2 : GetTasksOptions := { statuses := some ["a", "b"] }

/-- Counterexample to C1 as stated: the two calls differ in the `statuses`
filter and produce different remote queries, yet the comma-join used for key
purposes collides, so they derive the identical cache key. -/
theorem cache_key_distinctness_counterexample :
    c1opts1 ≠ c1opts2 ∧
    getTasksEndpoint "L" c1opts1 ≠ getTasksEndpoint "L" c1opts2 ∧
    getTasksKey "L" c1opts1 = getTasksKey "L" c1opts2 := by
  exact ⟨by decide, by decide, by decide⟩

/-- C1 (amended).  Cache-key determinism and distinctness: the derived key
depends only on the multiset of defined (name, serialised value) parameters —
insertion order is irrelevant and `undefined` entries are omitted — and, for
`getTasks` and `searchTasks` parameter sets whose string-valued filters avoid
the reserved separator characters (`|` anywhere; array elements additionally
non-empty and comma-free), two calls derive the same key exactly when all
their semantic parameters agree.  (The comma constraint is forced by the
source's `join(",")`: comma-containing array elements collide, see the
counterexample.) -/
theorem cache_key_determinism_and_distinctness :
    (∀ (op : String) (ps qs : List (String × Option PVal)),
      (definedSer ps).Perm (definedSer qs) → createCacheKey op ps = createCacheKey op qs) ∧
    (∀ (l1 : String) (o1 : GetTasksOptions) (l2 : String) (o2 : GetTasksOptions),
      TasksParamsSafe l1 o1 → TasksParamsSafe l2 o2 →
      (getTasksKey l1 o1 = getTasksKey l2 o2 ↔ l1 = l2 ∧ o1 = o2)) ∧
    (∀ (q1 : String) (o1 : SearchTasksOptions) (q2 : String) (o2 : SearchTasksOptions),
      SearchParamsSafe q1 o1 → SearchParamsSafe q2 o2 →
      (searchTasksKey q1 o1 = searchTasksKey q2 o2 ↔ q1 = q2 ∧ o1 = o2)) := by
  refine ⟨createCacheKey_of_perm, ?_, ?_⟩
  · intro l1 o1 l2 o2 hs1 hs2
    constructor
    · exact getTasksKey_inj l1 o1 l2 o2 hs1 hs2
    · rintro ⟨rfl, rfl⟩
      rfl
  · intro q1 o1 q2 o2 hs1 hs2
    constructor
    · exact searchTasksKey_inj q1 o1 q2 o2 hs1 hs2
    · rintro ⟨rfl, rfl⟩
      rfl

/-- Witness for C1 at concrete safe parameter sets: two calls differing in the
`archived` flag derive different keys. -/
theorem cache_key_determinism_and_distinctness_witness :
    TasksParamsSafe "L" { archived := some true } ∧
    TasksParamsSafe "L" { archived := some false } ∧
    getTasksKey "L" { archived := some true } ≠ getTasksKey "L" { archived := some false } := by
  have hs1 : TasksParamsSafe "L" { archived := some true } :=
    ⟨show ('|' : Char) ∉ ("L" : String).data by decide, fun s h => Option.noConfusion h,
      fun L h => Option.noConfusion h, fun L h => Option.noConfusion h⟩
  have hs2 : TasksParamsSafe "L" { archived := some false } :=
    ⟨show ('|' : Char) ∉ ("L" : String).data by decide, fun s h => Option.noConfusion h,
      fun L h => Option.noConfusion h, fun L h => Option.noConfusion h⟩
  refine ⟨hs1, hs2, fun heq => ?_⟩
  have h := (cache_key_determinism_and_distinctness.2.1 "L" { archived := some true }
    "L" { archived := some false } hs1 hs2).mp heq
  exact absurd h.2 (by decide)
